import Mathlib

/-!
# librdmacm ACM client (src/acm.c): shallow embedding

The embedding follows `src/src/acm.c` function by function.

Conventions.

* Machine integers are `Nat` / `Int`.  A field that the C headers declare in
  network byte order (`__be16`, `__be32`, `__be64`) is represented by the number
  it carries, that is the value `ntohs` / `ntohl` / `ntohll` returns for it.  On
  this representation `htons`, `htonl`, `htonll` only truncate to the field
  width, and a raw test such as `if (port)` is a test of the carried number
  against zero.
* A pointer that may be `NULL` is an `Option`.
* A function whose C execution can read through a null pointer, outside the
  message buffer, or an address object through a structure type other than its
  own, returns `Option`: `none` stands for such an execution, about which the
  embedding says nothing further.
* The headers `<infiniband/acm.h>`, `<infiniband/sa.h>`, `<infiniband/ib.h>`,
  `<rdma/rdma_cma.h>` and the system socket headers are not part of the source
  tree under study.  Every constant and `sizeof` they supply is a field of
  `Consts`; nothing is assumed about their values beyond what a theorem states.
-/

namespace Acm

/-! ## Declarations supplied by the absent headers -/

/-- The members of `struct ibv_path_record` that `acm.c` reads. -/
structure ibv_path_record where
  pkey : Nat
  flowlabel_hoplimit : Nat
  sgid : List Nat
  dgid : List Nat
deriving DecidableEq, Repr

/-- Constants, sizes and the one record view that `acm.c` takes from headers
that are not in the source tree. -/
structure Consts where
  ACM_VERSION : Nat
  ACM_OP_RESOLVE : Nat
  ACM_MSG_HDR_LENGTH : Nat
  ACM_MSG_EP_LENGTH : Nat
  ACM_MAX_ADDRESS : Nat
  ACM_EP_INFO_ADDRESS_IP : Nat
  ACM_EP_INFO_ADDRESS_IP6 : Nat
  ACM_EP_INFO_PATH : Nat
  ACM_EP_FLAG_SOURCE : Nat
  ACM_EP_FLAG_DEST : Nat
  IBV_PATH_FLAG_PRIMARY : Nat
  IBV_PATH_FLAG_OUTBOUND : Nat
  AF_INET : Nat
  AF_IB : Nat
  RDMA_PS_IB : Nat
  RDMA_IB_IP_PS_MASK : Nat
  sizeof_sockaddr_in : Nat
  sizeof_sockaddr_in6 : Nat
  sizeof_sockaddr_ib : Nat
  sizeof_ibv_path_data : Nat
  /-- Number of whole entry slots in `struct acm_msg`. -/
  msg_slots : Nat
  /-- The `path` member of `union acm_ep_info`: the payload bytes of a slot read
  as a `struct ibv_path_record`. -/
  info_path : List Nat → ibv_path_record

/-- What the C compiler and the code itself need of the constants: the three
`case` labels of the `switch` are distinct, the sizes are positive, the two
request lengths fit the 16-bit length field, an address fits the payload, and
the buffer has the two slots the request writer addresses. -/
def Consts.Valid (K : Consts) : Prop :=
  K.ACM_EP_INFO_PATH ≠ K.ACM_EP_INFO_ADDRESS_IP ∧
  K.ACM_EP_INFO_PATH ≠ K.ACM_EP_INFO_ADDRESS_IP6 ∧
  K.ACM_EP_INFO_ADDRESS_IP ≠ K.ACM_EP_INFO_ADDRESS_IP6 ∧
  0 < K.ACM_MSG_EP_LENGTH ∧
  0 < K.sizeof_sockaddr_in ∧
  0 < K.sizeof_sockaddr_in6 ∧
  0 < K.sizeof_sockaddr_ib ∧
  K.ACM_MSG_HDR_LENGTH + 2 * K.ACM_MSG_EP_LENGTH < 2 ^ 16 ∧
  16 ≤ K.ACM_MAX_ADDRESS ∧
  2 ≤ K.msg_slots

instance (K : Consts) : Decidable K.Valid := by
  unfold Consts.Valid
  infer_instance

/-! ## Data model -/

/-- The `struct sockaddr_in` members. -/
structure sockaddr_in where
  sin_family : Nat
  sin_port : Nat
  sin_addr : List Nat
deriving DecidableEq, Repr

/-- The `struct sockaddr_in6` members. -/
structure sockaddr_in6 where
  sin6_family : Nat
  sin6_port : Nat
  sin6_flowinfo : Nat
  sin6_addr : List Nat
  sin6_scope_id : Nat
deriving DecidableEq, Repr

/-- The `struct sockaddr_ib` members. -/
structure sockaddr_ib where
  sib_family : Nat
  sib_pkey : Nat
  sib_flowinfo : Nat
  sib_addr : List Nat
  sib_sid : Nat
  sib_sid_mask : Nat
  sib_scope_id : Nat
deriving DecidableEq, Repr

/-- An object reachable through a `struct sockaddr *`. -/
inductive sockaddr where
  | in4 (a : sockaddr_in)
  | in6 (a : sockaddr_in6)
  | ib (a : sockaddr_ib)
deriving DecidableEq, Repr

/-- The `struct acm_hdr` members that `acm.c` uses. -/
structure acm_hdr where
  version : Nat
  opcode : Nat
  status : Nat
  length : Nat
deriving DecidableEq, Repr

/-- One slot `struct acm_ep_addr_data`; `info` is the payload `info.addr`. -/
structure acm_ep_addr_data where
  flags : Nat
  type : Nat
  reserved : Nat
  info : List Nat
deriving DecidableEq, Repr

/-- The message buffer `struct acm_msg`, seen as `struct acm_resolve_msg`: the
header and every slot of the buffer (`data.length` is its capacity). -/
structure acm_msg where
  hdr : acm_hdr
  data : List acm_ep_addr_data
deriving DecidableEq, Repr

/-- The `struct rdma_addrinfo` members that `acm.c` reads or writes, with
`ai_flags` and `ai_qp_type` standing for the members it never touches.
`ai_route` holds the slots copied by `memcpy`, each an overlay of
`struct ibv_path_data`. -/
structure rdma_addrinfo where
  ai_flags : Int
  ai_family : Nat
  ai_qp_type : Int
  ai_port_space : Nat
  ai_src_len : Nat
  ai_src_addr : Option sockaddr
  ai_dst_len : Nat
  ai_dst_addr : Option sockaddr
  ai_route_len : Nat
  ai_route : Option (List acm_ep_addr_data)
deriving DecidableEq, Repr

/-- Outcome of every `calloc` call one `ucma_ib_save_resp` execution can make:
`addr_ok i` for the source address allocated while decoding entry `i`,
`route_ok` for the route array, `sib_src_ok` and `sib_dst_ok` for the two
native addresses. -/
structure Heap where
  addr_ok : Nat → Bool
  route_ok : Bool
  sib_src_ok : Bool
  sib_dst_ok : Bool

/-! ## Helpers for memory operations -/

/-- The C call `memcpy(dst, src, n)` on byte arrays: the first `n` bytes of
`dst` are replaced by the first `n` bytes of `src`. -/
def memcpy (dst src : List Nat) (n : Nat) : List Nat :=
  src.take n ++ dst.drop n

/-- An all-zero slot, as left by `memset(&msg, 0, sizeof msg)`. -/
def zero_slot (K : Consts) : acm_ep_addr_data :=
  { flags := 0, type := 0, reserved := 0, info := List.replicate K.ACM_MAX_ADDRESS 0 }

/-- The address bytes read by `&((struct sockaddr_in *) p)->sin_addr`.  Only an
object that is a `struct sockaddr_in` is covered. -/
def sin_addr_of : Option sockaddr → Option (List Nat)
  | some (sockaddr.in4 a) => some a.sin_addr
  | _ => none

/-- The address bytes read by `&((struct sockaddr_in6 *) p)->sin6_addr`.  Only
an object that is a `struct sockaddr_in6` is covered. -/
def sin6_addr_of : Option sockaddr → Option (List Nat)
  | some (sockaddr.in6 a) => some a.sin6_addr
  | _ => none

/-- The member `sa_family`, the first member of every socket address. -/
def sa_family : sockaddr → Nat
  | sockaddr.in4 a => a.sin_family
  | sockaddr.in6 a => a.sin6_family
  | sockaddr.ib a => a.sib_family

/-- The read `((struct sockaddr_in *) addr)->sin_port`.  In each of the three
address structures the 16-bit member that directly follows the family member
is the one such a read reaches. -/
def sin_port_of : sockaddr → Nat
  | sockaddr.in4 a => a.sin_port
  | sockaddr.in6 a => a.sin6_port
  | sockaddr.ib a => a.sib_pkey

/-- The read `((struct sockaddr_in6 *) addr)->sin6_port`; see `sin_port_of`. -/
def sin6_port_of : sockaddr → Nat
  | sockaddr.in4 a => a.sin_port
  | sockaddr.in6 a => a.sin6_port
  | sockaddr.ib a => a.sib_pkey

/-- Truncation done by `htonll` on the carried number. -/
def htonll (x : Nat) : Nat := x % 2 ^ 64

/-- Truncation done by `htonl` on the carried number. -/
def htonl (x : Nat) : Nat := x % 2 ^ 32

/-- Truncation done by `ntohl` on the carried number. -/
def ntohl (x : Nat) : Nat := x % 2 ^ 32

/-- Truncation done by `ntohs` on the carried number. -/
def ntohs (x : Nat) : Nat := x % 2 ^ 16

/-- A `struct sockaddr_ib` as returned by `calloc(1, sizeof *src)`. -/
def zero_sockaddr_ib : sockaddr_ib :=
  { sib_family := 0, sib_pkey := 0, sib_flowinfo := 0, sib_addr := List.replicate 16 0,
    sib_sid := 0, sib_sid_mask := 0, sib_scope_id := 0 }

/-! ## Connection manager (lines 54-84) -/

/-- System calls issued on the channel. -/
inductive Sys where
  | socket
  | connect (fd : Int)
  | shutdown (fd : Int)
  | close (fd : Int)
deriving DecidableEq, Repr

/-- Function `ucma_ib_init`: `socket_ret` and `connect_ret` are the values the
two system calls return.  The result is the new value of the global `sock` and
the calls made. -/
def ucma_ib_init (socket_ret connect_ret : Int) : Int × List Sys :=
  let sock := socket_ret
  if sock < 0 then (sock, [Sys.socket])
  else if connect_ret ≠ 0 then (0, [Sys.socket, Sys.connect sock, Sys.close sock])
  else (sock, [Sys.socket, Sys.connect sock])

/-- Function `ucma_ib_cleanup`: the calls made for a given value of the global
`sock`.  The global itself is not written. -/
def ucma_ib_cleanup (sock : Int) : List Sys :=
  if sock > 0 then [Sys.shutdown sock, Sys.close sock] else []

/-! ## Native address synthesis (lines 86-143) -/

/-- Function `ucma_set_sid`.  `none`: `addr` is `NULL` and is dereferenced. -/
def ucma_set_sid (K : Consts) (ps : Nat) (addr : Option sockaddr) (sib : sockaddr_ib) :
    Option sockaddr_ib :=
  match addr with
  | none => none
  | some a =>
    let port : Nat :=
      (if sa_family a = K.AF_INET then sin_port_of a else sin6_port_of a) % 2 ^ 16
    let sib1 := { sib with sib_sid := htonll (((ps % 2 ^ 64) <<< 16) % 2 ^ 64 + ntohs port) }
    if port ≠ 0 then
      some { sib1 with sib_sid_mask := 2 ^ 64 - 1 }
    else
      some { sib1 with sib_sid_mask := htonll K.RDMA_IB_IP_PS_MASK }

/-- Function `ucma_ib_convert_addr`.  The argument `path` points into the
message buffer `msg`: it is the index of the slot whose payload it addresses,
or `none` for `NULL`.  `none` as result: a read outside the buffer or through
a null address pointer. -/
def ucma_ib_convert_addr (K : Consts) (H : Heap) (rai : rdma_addrinfo) (msg : acm_msg)
    (path : Option Nat) : Option rdma_addrinfo :=
  match path with
  | none => some rai
  | some p =>
    if H.sib_src_ok = false then some rai
    else if H.sib_dst_ok = false then some rai
    else
      match msg.data[p]? with
      | none => none
      | some slot =>
        let path := K.info_path slot.info
        let src : sockaddr_ib :=
          { zero_sockaddr_ib with
            sib_family := K.AF_IB
            sib_pkey := path.pkey
            sib_flowinfo := htonl (ntohl path.flowlabel_hoplimit >>> 8)
            sib_addr := memcpy zero_sockaddr_ib.sib_addr path.sgid 16 }
        match ucma_set_sid K rai.ai_port_space rai.ai_src_addr src with
        | none => none
        | some src =>
          let dst : sockaddr_ib :=
            { zero_sockaddr_ib with
              sib_family := K.AF_IB
              sib_pkey := path.pkey
              sib_flowinfo := htonl (ntohl path.flowlabel_hoplimit >>> 8)
              sib_addr := memcpy zero_sockaddr_ib.sib_addr path.dgid 16 }
          match ucma_set_sid K rai.ai_port_space rai.ai_dst_addr dst with
          | none => none
          | some dst =>
            some { rai with
                   ai_src_addr := some (sockaddr.ib src)
                   ai_src_len := K.sizeof_sockaddr_ib
                   ai_dst_addr := some (sockaddr.ib dst)
                   ai_dst_len := K.sizeof_sockaddr_ib
                   ai_family := K.AF_IB
                   ai_port_space := K.RDMA_PS_IB }

/-! ## Response decoder (lines 145-200) -/

/-- Local variables of `ucma_ib_save_resp` together with the two objects it
writes.  The pointers `path_data` and `pri_path` are slot indices into
`msg.data` (`struct ibv_path_data` and `struct acm_ep_addr_data` have the same
size and the `path` member overlays `info`, so `path_data[k]` is the slot `k`
places after the one `path_data` points to). -/
structure save_state where
  rai : rdma_addrinfo
  msg : acm_msg
  path_data : Option Nat
  pri_path : Option Nat
  path_cnt : Int
deriving DecidableEq, Repr

/-- One iteration of the `for` loop of `ucma_ib_save_resp` (lines 153-189) at
index `i`.  `none`: slot `i` is outside the buffer. -/
def save_resp_entry (K : Consts) (H : Heap) (i : Nat) (s : save_state) : Option save_state :=
  match s.msg.data[i]? with
  | none => none
  | some d =>
    if d.type = K.ACM_EP_INFO_PATH then
      let msg1 : acm_msg := { s.msg with data := s.msg.data.set i { d with type := 0 } }
      let f : Nat := match s.path_data with
        | none => i
        | some f => f
      some { s with
             msg := msg1
             path_data := some f
             path_cnt := s.path_cnt + 1
             pri_path :=
               if d.flags ||| (K.IBV_PATH_FLAG_PRIMARY ||| K.IBV_PATH_FLAG_OUTBOUND) ≠ 0
               then some (f + i) else s.pri_path }
    else if d.type = K.ACM_EP_INFO_ADDRESS_IP then
      if d.flags &&& K.ACM_EP_FLAG_SOURCE = 0 ∨ s.rai.ai_src_len ≠ 0 then some s
      else if H.addr_ok i = false then
        some { s with rai := { s.rai with ai_src_addr := none } }
      else
        some { s with rai := { s.rai with
          ai_src_addr := some (sockaddr.in4
            { sin_family := 0, sin_port := 0, sin_addr := memcpy (List.replicate 4 0) d.info 4 })
          ai_src_len := K.sizeof_sockaddr_in } }
    else if d.type = K.ACM_EP_INFO_ADDRESS_IP6 then
      if d.flags &&& K.ACM_EP_FLAG_SOURCE = 0 ∨ s.rai.ai_src_len ≠ 0 then some s
      else if H.addr_ok i = false then
        some { s with rai := { s.rai with ai_src_addr := none } }
      else
        some { s with rai := { s.rai with
          ai_src_addr := some (sockaddr.in6
            { sin6_family := 0, sin6_port := 0, sin6_flowinfo := 0,
              sin6_addr := memcpy (List.replicate 16 0) d.info 16, sin6_scope_id := 0 })
          ai_src_len := K.sizeof_sockaddr_in6 } }
    else some s

/-- The loop `for (i = 0; i < cnt; i++)` of `ucma_ib_save_resp`: `n` iterations
remain and the next index is `i`. -/
def save_resp_loop (K : Consts) (H : Heap) : Nat → Nat → save_state → Option save_state
  | 0, _, s => some s
  | n + 1, i, s =>
    match save_resp_entry K H i s with
    | none => none
    | some s1 => save_resp_loop K H n (i + 1) s1

/-- Lines 192-196 of `ucma_ib_save_resp`: allocation and filling of `ai_route`.
A negative count converts to a `size_t` whose product with the element size
overflows, so `calloc` returns `NULL`.  `none`: `memcpy` reads from `NULL` or
past the end of the message buffer. -/
def save_resp_route (K : Consts) (H : Heap) (s : save_state) : Option rdma_addrinfo :=
  if s.path_cnt < 0 ∨ H.route_ok = false then
    some { s.rai with ai_route := none }
  else
    let n := s.path_cnt.toNat
    match s.path_data with
    | none =>
      if n = 0 then some { s.rai with ai_route := some [], ai_route_len := 0 } else none
    | some f =>
      if f + n ≤ s.msg.data.length then
        some { s.rai with
               ai_route := some ((s.msg.data.drop f).take n)
               ai_route_len := n * K.sizeof_ibv_path_data }
      else none

/-- The entry count `cnt` computed on line 151 (C `int` arithmetic, division
truncating toward zero). -/
def save_resp_cnt (K : Consts) (msg : acm_msg) : Int :=
  ((msg.hdr.length : Int) - (K.ACM_MSG_HDR_LENGTH : Int)).tdiv (K.ACM_MSG_EP_LENGTH : Int)

/-- State of `ucma_ib_save_resp` on entry to the loop.  The automatic variable
`path_cnt` is declared without an initialiser; `path_cnt0` is the value it
happens to hold. -/
def save_resp_start (path_cnt0 : Int) (rai : rdma_addrinfo) (msg : acm_msg) : save_state :=
  { rai := rai, msg := msg, path_data := none, pri_path := none, path_cnt := path_cnt0 }

/-- Lines 151-190 of `ucma_ib_save_resp`: the state after the decoding loop. -/
def save_resp_decode (K : Consts) (H : Heap) (path_cnt0 : Int) (rai : rdma_addrinfo)
    (msg : acm_msg) : Option save_state :=
  save_resp_loop K H (save_resp_cnt K msg).toNat 0 (save_resp_start path_cnt0 rai msg)

/-- Function `ucma_ib_save_resp`.  `af_ib_support` is the global flag of that
name, `path_cnt0` the indeterminate initial value of `path_cnt`. -/
def ucma_ib_save_resp (K : Consts) (H : Heap) (af_ib_support : Int) (path_cnt0 : Int)
    (rai : rdma_addrinfo) (msg : acm_msg) : Option rdma_addrinfo :=
  match save_resp_decode K H path_cnt0 rai msg with
  | none => none
  | some s =>
    match save_resp_route K H s with
    | none => none
    | some rai1 =>
      if af_ib_support ≠ 0 then ucma_ib_convert_addr K H rai1 s.msg s.pri_path
      else some rai1

/-! ## Request encoder and round trip (lines 202-259) -/

/-- The buffer after `memset(&msg, 0, sizeof msg)`. -/
def zero_msg (K : Consts) : acm_msg :=
  { hdr := { version := 0, opcode := 0, status := 0, length := 0 },
    data := List.replicate K.msg_slots (zero_slot K) }

/-- The address entry written into a zeroed slot (lines 218-227 and 235-244):
flag `flags`, type and payload chosen by `rai->ai_family`, the address read
from `addr`.  `none`: `addr` is not an object of the structure type the family
selects (this includes `NULL`). -/
def resolve_entry (K : Consts) (flags : Nat) (ai_family : Nat) (addr : Option sockaddr) :
    Option acm_ep_addr_data :=
  if ai_family = K.AF_INET then
    match sin_addr_of addr with
    | none => none
    | some bytes =>
      some { zero_slot K with
             flags := flags
             type := K.ACM_EP_INFO_ADDRESS_IP
             info := memcpy (zero_slot K).info bytes 4 }
  else
    match sin6_addr_of addr with
    | none => none
    | some bytes =>
      some { zero_slot K with
             flags := flags
             type := K.ACM_EP_INFO_ADDRESS_IP6
             info := memcpy (zero_slot K).info bytes 16 }

/-- Lines 212-244 of `ucma_ib_resolve`: the request message.  The length field
is 16 bits wide. -/
def resolve_request (K : Consts) (rai : rdma_addrinfo) : Option acm_msg :=
  let msg := zero_msg K
  let hdr := { msg.hdr with version := K.ACM_VERSION, opcode := K.ACM_OP_RESOLVE }
  if rai.ai_src_len ≠ 0 then
    match resolve_entry K K.ACM_EP_FLAG_SOURCE rai.ai_family rai.ai_src_addr with
    | none => none
    | some src_data =>
      match resolve_entry K K.ACM_EP_FLAG_DEST rai.ai_family rai.ai_dst_addr with
      | none => none
      | some dst_data =>
        some { hdr := { hdr with
                        length := (K.ACM_MSG_HDR_LENGTH + 2 * K.ACM_MSG_EP_LENGTH) % 2 ^ 16 },
               data := (msg.data.set 0 src_data).set 1 dst_data }
  else
    match resolve_entry K K.ACM_EP_FLAG_DEST rai.ai_family rai.ai_dst_addr with
    | none => none
    | some dst_data =>
      some { hdr := { hdr with
                      length := (K.ACM_MSG_HDR_LENGTH + K.ACM_MSG_EP_LENGTH) % 2 ^ 16 },
             data := msg.data.set 0 dst_data }

/-- Everything outside the program that one `ucma_ib_resolve` call depends on:
the value `send` returns for the message handed to it, the value `recv`
returns together with the buffer contents it leaves, the `calloc` outcomes and
the initial value of the uninitialised `path_cnt`. -/
structure Env where
  send : acm_msg → Int
  recv : acm_msg → Int × acm_msg
  heap : Heap
  path_cnt0 : Int

/-- Observable steps of one `ucma_ib_resolve` call. -/
inductive Event where
  | lock
  | send (msg : acm_msg) (len : Nat)
  | recv
  | unlock
  | save_resp (msg : acm_msg)
deriving DecidableEq, Repr

/-- Function `ucma_ib_resolve` for given values of the globals `sock` and
`af_ib_support`.  The result is the trace of steps and the request after the
call (`none`: an invalid read, see the conventions). -/
def ucma_ib_resolve (K : Consts) (E : Env) (sock : Int) (af_ib_support : Int)
    (rai : rdma_addrinfo) : List Event × Option rdma_addrinfo :=
  if sock ≤ 0 then ([], some rai)
  else
    match resolve_request K rai with
    | none => ([], none)
    | some msg =>
      let ret := E.send msg
      if ret ≠ (msg.hdr.length : Int) then
        ([Event.lock, Event.send msg msg.hdr.length, Event.unlock], some rai)
      else
        let ret := (E.recv msg).1
        let reply := (E.recv msg).2
        if ret < (K.ACM_MSG_HDR_LENGTH : Int) ∨ ret ≠ (reply.hdr.length : Int)
            ∨ reply.hdr.status ≠ 0 then
          ([Event.lock, Event.send msg msg.hdr.length, Event.recv, Event.unlock], some rai)
        else
          ([Event.lock, Event.send msg msg.hdr.length, Event.recv, Event.unlock,
            Event.save_resp reply],
           ucma_ib_save_resp K E.heap af_ib_support E.path_cnt0 rai reply)

/-! ## Reference values

The values the public rdma-core and Linux headers give to the constants; they
serve as a concrete instance at which the definitions are evaluated.  The
record view places `dgid` at payload bytes 8-23, `sgid` at 24-39, the flow
label and hop limit at 44-47 and the partition key at 50-51, big-endian. -/

/-- Big-endian number carried by a list of bytes. -/
def be_value (bytes : List Nat) : Nat :=
  bytes.foldl (fun acc b => acc * 256 + b) 0

/-- Reference instance of `Consts`. -/
def ref_consts : Consts :=
  { ACM_VERSION := 1
    ACM_OP_RESOLVE := 1
    ACM_MSG_HDR_LENGTH := 16
    ACM_MSG_EP_LENGTH := 72
    ACM_MAX_ADDRESS := 64
    ACM_EP_INFO_ADDRESS_IP := 2
    ACM_EP_INFO_ADDRESS_IP6 := 3
    ACM_EP_INFO_PATH := 16
    ACM_EP_FLAG_SOURCE := 1
    ACM_EP_FLAG_DEST := 2
    IBV_PATH_FLAG_PRIMARY := 2
    IBV_PATH_FLAG_OUTBOUND := 8
    AF_INET := 2
    AF_IB := 27
    RDMA_PS_IB := 319
    RDMA_IB_IP_PS_MASK := 18446744073709486080
    sizeof_sockaddr_in := 16
    sizeof_sockaddr_in6 := 28
    sizeof_sockaddr_ib := 48
    sizeof_ibv_path_data := 72
    msg_slots := 8
    info_path := fun b =>
      { pkey := be_value ((b.drop 50).take 2)
        flowlabel_hoplimit := be_value ((b.drop 44).take 4)
        sgid := (b.drop 24).take 16
        dgid := (b.drop 8).take 16 } }

/-- A heap on which every allocation succeeds. -/
def heap_ok : Heap :=
  { addr_ok := fun _ => true, route_ok := true, sib_src_ok := true, sib_dst_ok := true }

/-! ## Statements of the specification, in its own words -/

/-- The raw bytes of a request address that is of the kind the request family
announces: the 4 bytes of an IPv4 address when the family is `AF_INET`, the 16
bytes of an IPv6 address for the other family.  `none` for an absent or
ill-formed address. -/
def raw_address (K : Consts) (ai_family : Nat) (addr : Option sockaddr) : Option (List Nat) :=
  match addr with
  | some (sockaddr.in4 a) =>
    if ai_family = K.AF_INET ∧ a.sin_addr.length = 4 then some a.sin_addr else none
  | some (sockaddr.in6 a) =>
    if ai_family ≠ K.AF_INET ∧ a.sin6_addr.length = 16 then some a.sin6_addr else none
  | _ => none

/-- The address entry the specification describes: the given flag, the type
tag chosen by family, the raw bytes zero-padded to the slot width. -/
def spec_entry (K : Consts) (flags ai_family : Nat) (bytes : List Nat) : acm_ep_addr_data :=
  { flags := flags
    type := if ai_family = K.AF_INET then K.ACM_EP_INFO_ADDRESS_IP else K.ACM_EP_INFO_ADDRESS_IP6
    reserved := 0
    info := bytes ++ List.replicate (K.ACM_MAX_ADDRESS - bytes.length) 0 }

/-- The request the specification describes for a destination-only input: one
entry, declared length of header plus one entry width. -/
def spec_request_dst (K : Consts) (ai_family : Nat) (dst : List Nat) : acm_msg :=
  { hdr := { version := K.ACM_VERSION, opcode := K.ACM_OP_RESOLVE, status := 0,
             length := K.ACM_MSG_HDR_LENGTH + K.ACM_MSG_EP_LENGTH },
    data := spec_entry K K.ACM_EP_FLAG_DEST ai_family dst ::
      List.replicate (K.msg_slots - 1) (zero_slot K) }

/-- The request the specification describes for a source-and-destination
input: two entries in that order, declared length of header plus two entry
widths. -/
def spec_request_src_dst (K : Consts) (ai_family : Nat) (src dst : List Nat) : acm_msg :=
  { hdr := { version := K.ACM_VERSION, opcode := K.ACM_OP_RESOLVE, status := 0,
             length := K.ACM_MSG_HDR_LENGTH + 2 * K.ACM_MSG_EP_LENGTH },
    data := spec_entry K K.ACM_EP_FLAG_SOURCE ai_family src ::
      spec_entry K K.ACM_EP_FLAG_DEST ai_family dst ::
      List.replicate (K.msg_slots - 2) (zero_slot K) }

/-- The addresses the encoder has to write, in slot order: the source first
when the request has one, then the destination. -/
def request_addresses (rai : rdma_addrinfo) : List (Option sockaddr) :=
  if rai.ai_src_len ≠ 0 then [rai.ai_src_addr, rai.ai_dst_addr] else [rai.ai_dst_addr]

/-- Number of raw address bytes for a family: 4 for `AF_INET`, else 16. -/
def address_width (K : Consts) (ai_family : Nat) : Nat :=
  if ai_family = K.AF_INET then 4 else 16

/-- The entries of a reply that are tagged `ACM_EP_INFO_PATH`, in response
order, as the decoder leaves them (tag cleared). -/
def spec_route (K : Consts) (msg : acm_msg) : List acm_ep_addr_data :=
  (((msg.data.take (save_resp_cnt K msg).toNat).filter
      (fun d => d.type = K.ACM_EP_INFO_PATH)).map (fun d => { d with type := 0 }))

/-- Index of the first entry of a reply that is tagged `ACM_EP_INFO_PATH` and
whose flags include both `IBV_PATH_FLAG_PRIMARY` and `IBV_PATH_FLAG_OUTBOUND`. -/
def spec_pri_path (K : Consts) (msg : acm_msg) : Option Nat :=
  let both := K.IBV_PATH_FLAG_PRIMARY ||| K.IBV_PATH_FLAG_OUTBOUND
  ((List.range (save_resp_cnt K msg).toNat).filter (fun i =>
      match msg.data[i]? with
      | some d => d.type = K.ACM_EP_INFO_PATH ∧ d.flags &&& both = both
      | none => false)).head?

/-- An address entry flagged SOURCE: tagged IPv4 or IPv6 with the
`ACM_EP_FLAG_SOURCE` bit set. -/
def is_source_entry (K : Consts) (d : acm_ep_addr_data) : Prop :=
  (d.type = K.ACM_EP_INFO_ADDRESS_IP ∨ d.type = K.ACM_EP_INFO_ADDRESS_IP6) ∧
  d.flags &&& K.ACM_EP_FLAG_SOURCE ≠ 0

instance (K : Consts) (d : acm_ep_addr_data) : Decidable (is_source_entry K d) := by
  unfold is_source_entry
  infer_instance

/-- The resolved source address the specification describes for a SOURCE
entry: a fresh zeroed address structure of the entry's kind holding the first
4 (IPv4 tag) or 16 (IPv6 tag) payload bytes. -/
def spec_source_addr (K : Consts) (d : acm_ep_addr_data) : sockaddr :=
  if d.type = K.ACM_EP_INFO_ADDRESS_IP then
    sockaddr.in4 { sin_family := 0, sin_port := 0, sin_addr := d.info.take 4 }
  else
    sockaddr.in6 { sin6_family := 0, sin6_port := 0, sin6_flowinfo := 0,
                   sin6_addr := d.info.take 16, sin6_scope_id := 0 }

/-- The recorded length that goes with `spec_source_addr`. -/
def spec_source_len (K : Consts) (d : acm_ep_addr_data) : Nat :=
  if d.type = K.ACM_EP_INFO_ADDRESS_IP then K.sizeof_sockaddr_in else K.sizeof_sockaddr_in6

/-! ## Concrete inputs -/

/-- An environment in which `send` reports an error. -/
def env_send_fails : Env :=
  { send := fun _ => -1, recv := fun m => (-1, m), heap := heap_ok, path_cnt0 := 0 }

/-- An environment in which the service answers with a well-formed one-entry
reply whose status field is 1. -/
def env_status_one : Env :=
  { send := fun m => (m.hdr.length : Int)
    recv := fun m =>
      (88, { hdr := { version := 1, opcode := 1, status := 1, length := 88 }, data := m.data })
    heap := heap_ok
    path_cnt0 := 0 }

/-- An IPv4 request with a destination and no source. -/
def rai_dst_only : rdma_addrinfo :=
  { ai_flags := 0, ai_family := 2, ai_qp_type := 0, ai_port_space := 262,
    ai_src_len := 0, ai_src_addr := none,
    ai_dst_len := 16,
    ai_dst_addr := some (sockaddr.in4 { sin_family := 2, sin_port := 7471, sin_addr := [10, 0, 0, 2] }),
    ai_route_len := 0, ai_route := none }

/-- An IPv4 request with a source and a destination. -/
def rai_src_dst : rdma_addrinfo :=
  { rai_dst_only with
    ai_src_len := 16
    ai_src_addr := some (sockaddr.in4 { sin_family := 2, sin_port := 0, sin_addr := [10, 0, 0, 1] }) }

/-- A slot tagged `ACM_EP_INFO_PATH` (16) with the given flags, whose path
record has every `dgid` byte equal to `tag` and every `sgid` byte equal to
`tag + 100`. -/
def path_slot (flags tag : Nat) : acm_ep_addr_data :=
  { flags := flags, type := 16, reserved := 0,
    info := List.replicate 8 0 ++ List.replicate 16 tag ++ List.replicate 16 (tag + 100)
      ++ List.replicate 24 0 }

/-- A slot tagged `ACM_EP_INFO_ADDRESS_IP` (2) flagged `ACM_EP_FLAG_DEST` (2)
carrying the address 10.0.0.2. -/
def dest_slot : acm_ep_addr_data :=
  { flags := 2, type := 2, reserved := 0, info := [10, 0, 0, 2] ++ List.replicate 60 0 }

/-- An accepted reply of three path records of which only the second carries
`IBV_PATH_FLAG_PRIMARY | IBV_PATH_FLAG_OUTBOUND` (2 | 8 = 10). -/
def reply_three_paths : acm_msg :=
  { hdr := { version := 1, opcode := 1, status := 0, length := 16 + 3 * 72 },
    data := [path_slot 0 1, path_slot 10 2, path_slot 0 3]
      ++ List.replicate 5 (zero_slot ref_consts) }

/-- An accepted reply of one path record that carries `IBV_PATH_FLAG_PRIMARY`
(2) and not `IBV_PATH_FLAG_OUTBOUND`. -/
def reply_path_not_outbound : acm_msg :=
  { hdr := { version := 1, opcode := 1, status := 0, length := 16 + 72 },
    data := path_slot 2 1 :: List.replicate 7 (zero_slot ref_consts) }

/-- An accepted reply in which an address entry sits between two path
records. -/
def reply_interleaved : acm_msg :=
  { hdr := { version := 1, opcode := 1, status := 0, length := 16 + 3 * 72 },
    data := [path_slot 10 1, dest_slot, path_slot 0 3]
      ++ List.replicate 5 (zero_slot ref_consts) }

/-- An accepted reply that consists of the header alone. -/
def reply_no_entries : acm_msg :=
  { hdr := { version := 1, opcode := 1, status := 0, length := 16 },
    data := List.replicate 8 (zero_slot ref_consts) }

/-- A slot tagged `ACM_EP_INFO_ADDRESS_IP` (2) flagged `ACM_EP_FLAG_SOURCE` (1)
carrying the address 10.0.0.`last`. -/
def source_slot (last : Nat) : acm_ep_addr_data :=
  { flags := 1, type := 2, reserved := 0, info := [10, 0, 0, last] ++ List.replicate 60 0 }

/-- An accepted reply with a destination entry followed by two SOURCE address
entries, 10.0.0.7 and 10.0.0.9. -/
def reply_two_sources : acm_msg :=
  { hdr := { version := 1, opcode := 1, status := 0, length := 16 + 3 * 72 },
    data := [dest_slot, source_slot 7, source_slot 9]
      ++ List.replicate 5 (zero_slot ref_consts) }

/-- The 16-bit port of a generic (IPv4 or IPv6) socket address. -/
def spec_port : sockaddr → Option Nat
  | sockaddr.in4 a => some a.sin_port
  | sockaddr.in6 a => some a.sin6_port
  | sockaddr.ib _ => none

/-- Two requests agree on every member other than the source address and its
length and the route and its length. -/
def same_outside_source_and_route (a b : rdma_addrinfo) : Prop :=
  a.ai_flags = b.ai_flags ∧ a.ai_family = b.ai_family ∧ a.ai_qp_type = b.ai_qp_type ∧
  a.ai_port_space = b.ai_port_space ∧ a.ai_dst_len = b.ai_dst_len ∧
  a.ai_dst_addr = b.ai_dst_addr

/-- Number of whole entry slots in a receive buffer of `cap` bytes. -/
def buffer_slots (K : Consts) (cap : Nat) : Nat :=
  (cap - K.ACM_MSG_HDR_LENGTH) / K.ACM_MSG_EP_LENGTH

/-- An accepted reply of one path record that carries both
`IBV_PATH_FLAG_PRIMARY` and `IBV_PATH_FLAG_OUTBOUND`, and no address entry. -/
def reply_one_path : acm_msg :=
  { hdr := { version := 1, opcode := 1, status := 0, length := 16 + 72 },
    data := path_slot 10 1 :: List.replicate 7 (zero_slot ref_consts) }

/-- An accepted reply of two entries: a destination address entry followed by
a path record that carries both flags. -/
def reply_path_after_address : acm_msg :=
  { hdr := { version := 1, opcode := 1, status := 0, length := 16 + 2 * 72 },
    data := [dest_slot, path_slot 10 1] ++ List.replicate 6 (zero_slot ref_consts) }

/-- The system calls made by `n` consecutive calls of `ucma_ib_cleanup`.  The
function never assigns the global `sock`, so every call sees the same value. -/
def cleanup_calls (sock : Int) : Nat → List Sys
  | 0 => []
  | n + 1 => ucma_ib_cleanup sock ++ cleanup_calls sock n

/-! ## Lemmas on the request encoder -/

theorem valid_ref_consts : ref_consts.Valid := by
  decide

theorem resolve_entry_eq_spec (K : Consts) (flags ai_family : Nat)
    (addr : Option sockaddr) (bytes : List Nat)
    (h : raw_address K ai_family addr = some bytes) :
    resolve_entry K flags ai_family addr = some (spec_entry K flags ai_family bytes) := by
  unfold raw_address at h
  unfold resolve_entry spec_entry
  cases addr with
  | none => simp at h
  | some a =>
    cases a with
    | in4 a =>
      simp only at h
      split at h
      · rename_i hc
        obtain ⟨hf, hl⟩ := hc
        simp only [Option.some.injEq] at h
        subst h
        simp [hf, sin_addr_of, memcpy, zero_slot, hl, List.take_of_length_le]
      · simp at h
    | in6 a =>
      simp only at h
      split at h
      · rename_i hc
        obtain ⟨hf, hl⟩ := hc
        simp only [Option.some.injEq] at h
        subst h
        simp [hf, sin6_addr_of, memcpy, zero_slot, hl, List.take_of_length_le]
      · simp at h
    | ib a => simp at h

theorem raw_address_length (K : Consts) (ai_family : Nat) (addr : Option sockaddr)
    (bytes : List Nat) (h : raw_address K ai_family addr = some bytes) :
    bytes.length = if ai_family = K.AF_INET then 4 else 16 := by
  unfold raw_address at h
  cases addr with
  | none => simp at h
  | some a =>
    cases a with
    | in4 a =>
      simp only at h
      split at h
      · rename_i hc
        simp only [Option.some.injEq] at h
        subst h
        simp [hc.1, hc.2]
      · simp at h
    | in6 a =>
      simp only at h
      split at h
      · rename_i hc
        simp only [Option.some.injEq] at h
        subst h
        simp [hc.1, hc.2]
      · simp at h
    | ib a => simp at h

theorem resolve_request_dst (K : Consts) (hK : K.Valid) (rai : rdma_addrinfo)
    (dst : List Nat) (hsrc : rai.ai_src_len = 0)
    (hdst : raw_address K rai.ai_family rai.ai_dst_addr = some dst) :
    resolve_request K rai = some (spec_request_dst K rai.ai_family dst) := by
  obtain ⟨-, -, -, -, -, -, -, hlen, -, hslots⟩ := hK
  have hmod : (K.ACM_MSG_HDR_LENGTH + K.ACM_MSG_EP_LENGTH) % 2 ^ 16
      = K.ACM_MSG_HDR_LENGTH + K.ACM_MSG_EP_LENGTH := Nat.mod_eq_of_lt (by omega)
  obtain ⟨m, hm⟩ : ∃ m, K.msg_slots = m + 1 := ⟨K.msg_slots - 1, by omega⟩
  unfold resolve_request spec_request_dst
  simp only [hsrc, ne_eq, not_true_eq_false, if_false,
    resolve_entry_eq_spec K _ _ _ _ hdst, hmod, zero_msg, hm]
  simp [List.replicate_succ]

theorem resolve_request_src_dst (K : Consts) (hK : K.Valid) (rai : rdma_addrinfo)
    (src dst : List Nat) (hlen : rai.ai_src_len ≠ 0)
    (hsrc : raw_address K rai.ai_family rai.ai_src_addr = some src)
    (hdst : raw_address K rai.ai_family rai.ai_dst_addr = some dst) :
    resolve_request K rai = some (spec_request_src_dst K rai.ai_family src dst) := by
  obtain ⟨-, -, -, -, -, -, -, hfit, -, hslots⟩ := hK
  have hmod : (K.ACM_MSG_HDR_LENGTH + 2 * K.ACM_MSG_EP_LENGTH) % 2 ^ 16
      = K.ACM_MSG_HDR_LENGTH + 2 * K.ACM_MSG_EP_LENGTH := Nat.mod_eq_of_lt hfit
  obtain ⟨m, hm⟩ : ∃ m, K.msg_slots = m + 2 := ⟨K.msg_slots - 2, by omega⟩
  unfold resolve_request spec_request_src_dst
  simp only [hlen, ne_eq, not_false_eq_true, if_true,
    resolve_entry_eq_spec K _ _ _ _ hsrc, resolve_entry_eq_spec K _ _ _ _ hdst, hmod,
    zero_msg, hm]
  simp [List.replicate_succ]

theorem resolve_trace_head (K : Consts) (E : Env) (sock af_ib_support : Int)
    (rai : rdma_addrinfo) (msg : acm_msg) (hsock : 0 < sock)
    (hmsg : resolve_request K rai = some msg) :
    (ucma_ib_resolve K E sock af_ib_support rai).1.take 2
      = [Event.lock, Event.send msg msg.hdr.length] := by
  unfold ucma_ib_resolve
  have hs : ¬ sock ≤ 0 := by omega
  simp only [hs, if_false, hmsg]
  split
  · rfl
  · split <;> rfl

/-! ## Request encoder: claims C5, C6, C7 -/

/-- C5: for a request with a destination address and no source address
(`ai_src_len = 0`), `ucma_ib_resolve` builds and hands to `send` the message
with version `ACM_VERSION`, opcode `ACM_OP_RESOLVE`, declared length
`ACM_MSG_HDR_LENGTH + ACM_MSG_EP_LENGTH`, slot 0 flagged `ACM_EP_FLAG_DEST` and
carrying the destination address bytes, and every other slot still zero. -/
theorem c5_destination_only_request (K : Consts) (E : Env) (sock af_ib_support : Int)
    (rai : rdma_addrinfo) (dst : List Nat)
    (hK : K.Valid) (hsock : 0 < sock) (hsrc : rai.ai_src_len = 0)
    (hdst : raw_address K rai.ai_family rai.ai_dst_addr = some dst) :
    resolve_request K rai = some (spec_request_dst K rai.ai_family dst) ∧
    (ucma_ib_resolve K E sock af_ib_support rai).1.take 2
      = [Event.lock, Event.send (spec_request_dst K rai.ai_family dst)
          (K.ACM_MSG_HDR_LENGTH + K.ACM_MSG_EP_LENGTH)] ∧
    (spec_request_dst K rai.ai_family dst).data[0]?
      = some (spec_entry K K.ACM_EP_FLAG_DEST rai.ai_family dst) ∧
    (∀ i, 1 ≤ i → i < K.msg_slots →
      (spec_request_dst K rai.ai_family dst).data[i]? = some (zero_slot K)) := by
  have hreq := resolve_request_dst K hK rai dst hsrc hdst
  refine ⟨hreq, ?_, ?_, ?_⟩
  · exact resolve_trace_head K E sock af_ib_support rai _ hsock hreq
  · simp [spec_request_dst]
  · intro i h1 h2
    obtain ⟨j, rfl⟩ : ∃ j, i = j + 1 := ⟨i - 1, by omega⟩
    simp only [spec_request_dst, List.getElem?_cons_succ]
    rw [List.getElem?_replicate]
    simp
    omega

/-- Witness for C5: the IPv4 destination-only request at the reference
constants. -/
theorem c5_destination_only_request_witness :
    (ref_consts.Valid ∧ (0 : Int) < 3 ∧ rai_dst_only.ai_src_len = 0 ∧
      raw_address ref_consts rai_dst_only.ai_family rai_dst_only.ai_dst_addr
        = some [10, 0, 0, 2]) ∧
    resolve_request ref_consts rai_dst_only
      = some (spec_request_dst ref_consts rai_dst_only.ai_family [10, 0, 0, 2]) :=
  ⟨⟨valid_ref_consts, by decide, rfl, by decide⟩,
   (c5_destination_only_request ref_consts env_send_fails 3 0 rai_dst_only [10, 0, 0, 2]
      valid_ref_consts (by decide) rfl (by decide)).1⟩

/-- C6: for a request with both a source and a destination address
(`ai_src_len != 0`), `ucma_ib_resolve` builds and hands to `send` the message
with declared length `ACM_MSG_HDR_LENGTH + 2 * ACM_MSG_EP_LENGTH` whose slot 0
is flagged `ACM_EP_FLAG_SOURCE` and carries the source address bytes and whose
slot 1 is flagged `ACM_EP_FLAG_DEST` and carries the destination address
bytes; every later slot is still zero. -/
theorem c6_source_and_destination_request (K : Consts) (E : Env) (sock af_ib_support : Int)
    (rai : rdma_addrinfo) (src dst : List Nat)
    (hK : K.Valid) (hsock : 0 < sock) (hlen : rai.ai_src_len ≠ 0)
    (hsrc : raw_address K rai.ai_family rai.ai_src_addr = some src)
    (hdst : raw_address K rai.ai_family rai.ai_dst_addr = some dst) :
    resolve_request K rai = some (spec_request_src_dst K rai.ai_family src dst) ∧
    (ucma_ib_resolve K E sock af_ib_support rai).1.take 2
      = [Event.lock, Event.send (spec_request_src_dst K rai.ai_family src dst)
          (K.ACM_MSG_HDR_LENGTH + 2 * K.ACM_MSG_EP_LENGTH)] ∧
    (spec_request_src_dst K rai.ai_family src dst).data[0]?
      = some (spec_entry K K.ACM_EP_FLAG_SOURCE rai.ai_family src) ∧
    (spec_request_src_dst K rai.ai_family src dst).data[1]?
      = some (spec_entry K K.ACM_EP_FLAG_DEST rai.ai_family dst) ∧
    (∀ i, 2 ≤ i → i < K.msg_slots →
      (spec_request_src_dst K rai.ai_family src dst).data[i]? = some (zero_slot K)) := by
  have hreq := resolve_request_src_dst K hK rai src dst hlen hsrc hdst
  refine ⟨hreq, ?_, ?_, ?_, ?_⟩
  · exact resolve_trace_head K E sock af_ib_support rai _ hsock hreq
  · simp [spec_request_src_dst]
  · simp [spec_request_src_dst]
  · intro i h1 h2
    obtain ⟨j, rfl⟩ : ∃ j, i = j + 2 := ⟨i - 2, by omega⟩
    simp only [spec_request_src_dst, List.getElem?_cons_succ]
    rw [List.getElem?_replicate]
    simp
    omega

/-- Witness for C6: the IPv4 request with source and destination at the
reference constants. -/
theorem c6_source_and_destination_request_witness :
    (ref_consts.Valid ∧ (0 : Int) < 3 ∧ rai_src_dst.ai_src_len ≠ 0 ∧
      raw_address ref_consts rai_src_dst.ai_family rai_src_dst.ai_src_addr
        = some [10, 0, 0, 1] ∧
      raw_address ref_consts rai_src_dst.ai_family rai_src_dst.ai_dst_addr
        = some [10, 0, 0, 2]) ∧
    resolve_request ref_consts rai_src_dst
      = some (spec_request_src_dst ref_consts rai_src_dst.ai_family [10, 0, 0, 1] [10, 0, 0, 2]) :=
  ⟨⟨valid_ref_consts, by decide, by decide, by decide, by decide⟩,
   (c6_source_and_destination_request ref_consts env_send_fails 3 0 rai_src_dst
      [10, 0, 0, 1] [10, 0, 0, 2] valid_ref_consts (by decide) (by decide) (by decide)
      (by decide)).1⟩

theorem spec_entry_payload (K : Consts) (hK : K.Valid) (flags ai_family : Nat)
    (bytes : List Nat) (hb : bytes.length = address_width K ai_family) :
    (spec_entry K flags ai_family bytes).info.length = K.ACM_MAX_ADDRESS ∧
    (spec_entry K flags ai_family bytes).info.take (address_width K ai_family) = bytes ∧
    (∀ k, address_width K ai_family ≤ k → k < K.ACM_MAX_ADDRESS →
      (spec_entry K flags ai_family bytes).info[k]? = some 0) := by
  obtain ⟨-, -, -, -, -, -, -, -, hmax, -⟩ := hK
  have hw : address_width K ai_family ≤ 16 := by
    unfold address_width
    split <;> omega
  refine ⟨?_, ?_, ?_⟩
  · simp only [spec_entry, List.length_append, List.length_replicate]
    omega
  · simp [spec_entry, ← hb]
  · intro k h1 h2
    simp only [spec_entry]
    rw [List.getElem?_append_right (by omega), List.getElem?_replicate]
    simp
    omega

/-- C7: every address entry that the encoder of `ucma_ib_resolve` writes (the
source entry when there is one, and the destination entry) has type
`ACM_EP_INFO_ADDRESS_IP` when the request family is `AF_INET` and
`ACM_EP_INFO_ADDRESS_IP6` for the other (IPv6) family; its payload has the
fixed slot width, starts with the 4 or 16 raw address bytes, and is zero in
every remaining byte. -/
theorem c7_entry_type_and_padding (K : Consts) (rai : rdma_addrinfo) (raws : List (List Nat))
    (hK : K.Valid)
    (hraw : (request_addresses rai).map (raw_address K rai.ai_family) = raws.map some) :
    ∃ msg : acm_msg, resolve_request K rai = some msg ∧
      msg.hdr.length = K.ACM_MSG_HDR_LENGTH + raws.length * K.ACM_MSG_EP_LENGTH ∧
      ∀ (i : Nat) (bytes : List Nat), raws[i]? = some bytes →
        ∃ e : acm_ep_addr_data, msg.data[i]? = some e ∧
          e.type = (if rai.ai_family = K.AF_INET then K.ACM_EP_INFO_ADDRESS_IP
                    else K.ACM_EP_INFO_ADDRESS_IP6) ∧
          e.info.length = K.ACM_MAX_ADDRESS ∧
          e.info.take (address_width K rai.ai_family) = bytes ∧
          (∀ k, address_width K rai.ai_family ≤ k → k < K.ACM_MAX_ADDRESS →
            e.info[k]? = some 0) := by
  unfold request_addresses at hraw
  by_cases hlen : rai.ai_src_len ≠ 0
  · rw [if_pos hlen] at hraw
    rcases raws with _ | ⟨src, _ | ⟨dst, _ | ⟨z, zs⟩⟩⟩
    · simp at hraw
    · simp at hraw
    · simp only [List.map_cons, List.map_nil, List.cons.injEq, and_true] at hraw
      obtain ⟨hsrc, hdst⟩ := hraw
      refine ⟨_, resolve_request_src_dst K hK rai src dst hlen hsrc hdst, ?_, ?_⟩
      · simp [spec_request_src_dst]
      · intro i bytes hi
        rcases i with _ | _ | k
        · simp only [List.getElem?_cons_zero, Option.some.injEq] at hi
          subst hi
          refine ⟨spec_entry K K.ACM_EP_FLAG_SOURCE rai.ai_family src,
            by simp [spec_request_src_dst], rfl, ?_⟩
          exact spec_entry_payload K hK _ _ _ (raw_address_length K _ _ _ hsrc)
        · simp only [List.getElem?_cons_succ, List.getElem?_cons_zero,
            Option.some.injEq] at hi
          subst hi
          refine ⟨spec_entry K K.ACM_EP_FLAG_DEST rai.ai_family dst,
            by simp [spec_request_src_dst], rfl, ?_⟩
          exact spec_entry_payload K hK _ _ _ (raw_address_length K _ _ _ hdst)
        · simp at hi
    · simp at hraw
  · rw [if_neg hlen] at hraw
    have hzero : rai.ai_src_len = 0 := by
      simpa using hlen
    rcases raws with _ | ⟨dst, _ | ⟨z, zs⟩⟩
    · simp at hraw
    · simp only [List.map_cons, List.map_nil, List.cons.injEq, and_true] at hraw
      refine ⟨_, resolve_request_dst K hK rai dst hzero hraw, ?_, ?_⟩
      · simp [spec_request_dst]
      · intro i bytes hi
        rcases i with _ | k
        · simp only [List.getElem?_cons_zero, Option.some.injEq] at hi
          subst hi
          refine ⟨spec_entry K K.ACM_EP_FLAG_DEST rai.ai_family dst,
            by simp [spec_request_dst], rfl, ?_⟩
          exact spec_entry_payload K hK _ _ _ (raw_address_length K _ _ _ hraw)
        · simp at hi
    · simp at hraw

/-- Witness for C7: the IPv4 request with source and destination at the
reference constants. -/
theorem c7_entry_type_and_padding_witness :
    ref_consts.Valid ∧
    (request_addresses rai_src_dst).map (raw_address ref_consts rai_src_dst.ai_family)
      = [[10, 0, 0, 1], [10, 0, 0, 2]].map some ∧
    ∃ msg : acm_msg, resolve_request ref_consts rai_src_dst = some msg ∧
      msg.hdr.length = 16 + 2 * 72 :=
  ⟨valid_ref_consts, by decide,
   (c7_entry_type_and_padding ref_consts rai_src_dst [[10, 0, 0, 1], [10, 0, 0, 2]]
      valid_ref_consts (by decide)).imp (fun _ h => ⟨h.1, h.2.1⟩)⟩

/-! ## Round trip: claims C8, C9 -/

/-- C8: failure path of `ucma_ib_resolve`.  For every request the encoder can
read and every reply whose header status field is non-zero, the request after
the call equals the request before the call and `ucma_ib_save_resp` is not
invoked, whatever the reply's byte count and length field are. -/
theorem c8_nonzero_status_request_unchanged (K : Consts) (E : Env)
    (sock af_ib_support : Int) (rai : rdma_addrinfo) (msg : acm_msg)
    (hmsg : resolve_request K rai = some msg)
    (hstatus : (E.recv msg).2.hdr.status ≠ 0) :
    (ucma_ib_resolve K E sock af_ib_support rai).2 = some rai ∧
    ∀ m, Event.save_resp m ∉ (ucma_ib_resolve K E sock af_ib_support rai).1 := by
  unfold ucma_ib_resolve
  by_cases hs : sock ≤ 0
  · simp [hs]
  · simp only [hs, if_false, hmsg]
    by_cases hsend : E.send msg ≠ (msg.hdr.length : Int)
    · simp [hsend]
    · simp [hsend, hstatus]

/-- Witness for C8: a reply of consistent size (88 bytes received, length
field 88) and status 1. -/
theorem c8_nonzero_status_request_unchanged_witness :
    (resolve_request ref_consts rai_dst_only
        = some (spec_request_dst ref_consts 2 [10, 0, 0, 2]) ∧
      (env_status_one.recv (spec_request_dst ref_consts 2 [10, 0, 0, 2])).2.hdr.status ≠ 0) ∧
    (ucma_ib_resolve ref_consts env_status_one 3 1 rai_dst_only).2 = some rai_dst_only :=
  ⟨⟨by decide, by decide⟩,
   (c8_nonzero_status_request_unchanged ref_consts env_status_one 3 1 rai_dst_only
      (spec_request_dst ref_consts 2 [10, 0, 0, 2]) (by decide) (by decide)).1⟩

/-- C9: transport and protocol aborts of `ucma_ib_resolve`.  For every request
the encoder can read: if `send` returns a count different from the declared
length, or `recv` returns less than `ACM_MSG_HDR_LENGTH` (a negative error
value included), or `recv` returns a count different from the reply header's
length field, then the call returns with the request unchanged; its steps are
lock, send, unlock when the send count is wrong (no receive), and lock, send,
receive, unlock otherwise (none at all when the channel is not open);
`ucma_ib_save_resp` is not among them. -/
theorem c9_transport_abort_request_unchanged (K : Consts) (E : Env)
    (sock af_ib_support : Int) (rai : rdma_addrinfo) (msg : acm_msg)
    (hmsg : resolve_request K rai = some msg)
    (habort : E.send msg ≠ (msg.hdr.length : Int) ∨
      (E.recv msg).1 < (K.ACM_MSG_HDR_LENGTH : Int) ∨
      (E.recv msg).1 ≠ ((E.recv msg).2.hdr.length : Int)) :
    ucma_ib_resolve K E sock af_ib_support rai =
      (if sock ≤ 0 then []
       else if E.send msg ≠ (msg.hdr.length : Int) then
         [Event.lock, Event.send msg msg.hdr.length, Event.unlock]
       else
         [Event.lock, Event.send msg msg.hdr.length, Event.recv, Event.unlock],
       some rai) := by
  unfold ucma_ib_resolve
  by_cases hs : sock ≤ 0
  · simp [hs]
  · simp only [hs, if_false, hmsg]
    by_cases hsend : E.send msg ≠ (msg.hdr.length : Int)
    · simp [hsend]
    · rcases habort with h | h | h
      · exact absurd h hsend
      · simp [hsend, h]
      · simp [hsend, h]

/-- Witness for C9: the channel is open and `send` fails with -1. -/
theorem c9_transport_abort_request_unchanged_witness :
    (resolve_request ref_consts rai_dst_only
        = some (spec_request_dst ref_consts 2 [10, 0, 0, 2]) ∧
      env_send_fails.send (spec_request_dst ref_consts 2 [10, 0, 0, 2])
        ≠ ((spec_request_dst ref_consts 2 [10, 0, 0, 2]).hdr.length : Int)) ∧
    ucma_ib_resolve ref_consts env_send_fails 3 1 rai_dst_only =
      ([Event.lock, Event.send (spec_request_dst ref_consts 2 [10, 0, 0, 2]) 88, Event.unlock],
       some rai_dst_only) :=
  ⟨⟨by decide, by decide⟩,
   c9_transport_abort_request_unchanged ref_consts env_send_fails 3 1 rai_dst_only
      (spec_request_dst ref_consts 2 [10, 0, 0, 2]) (by decide) (Or.inl (by decide))⟩

/-! ## Response decoder: claims C1, C2, C3, C4 evaluated -/

/-- C1, evaluated at a reply of three path records where only the second
carries both PRIMARY and OUTBOUND: the first entry with both flags is entry 1,
but after the loop `pri_path` addresses entry 2, and the native destination and
source addresses built by the conversion carry the third record's `dgid` and
`sgid`. -/
theorem c1_last_path_record_selected :
    spec_pri_path ref_consts reply_three_paths = some 1 ∧
    (save_resp_decode ref_consts heap_ok 0 rai_src_dst reply_three_paths).map
      (fun s => s.pri_path) = some (some 2) ∧
    (ucma_ib_save_resp ref_consts heap_ok 1 0 rai_src_dst reply_three_paths).map
      (fun r => (r.ai_src_addr, r.ai_dst_addr))
      = some (some (sockaddr.ib
                { sib_family := 27, sib_pkey := 0, sib_flowinfo := 0,
                  sib_addr := List.replicate 16 103,
                  sib_sid := 262 * 65536, sib_sid_mask := 18446744073709486080,
                  sib_scope_id := 0 }),
              some (sockaddr.ib
                { sib_family := 27, sib_pkey := 0, sib_flowinfo := 0,
                  sib_addr := List.replicate 16 3,
                  sib_sid := 262 * 65536 + 7471, sib_sid_mask := 2 ^ 64 - 1,
                  sib_scope_id := 0 })) := by
  refine ⟨by decide, by decide, by decide⟩

/-- C2, evaluated at a reply whose only path record carries PRIMARY without
OUTBOUND, with `af_ib_support` set: no entry carries both flags, yet after the
loop `pri_path` addresses entry 0 and the conversion runs: the request comes
back with family `AF_IB` (27), port space `RDMA_PS_IB` (319) and a native
destination address. -/
theorem c2_conversion_without_both_flags :
    spec_pri_path ref_consts reply_path_not_outbound = none ∧
    (save_resp_decode ref_consts heap_ok 0 rai_src_dst reply_path_not_outbound).map
      (fun s => s.pri_path) = some (some 0) ∧
    (ucma_ib_save_resp ref_consts heap_ok 1 0 rai_src_dst reply_path_not_outbound).map
      (fun r => (r.ai_family, r.ai_port_space, r.ai_dst_addr))
      = some (27, 319, some (sockaddr.ib
                { sib_family := 27, sib_pkey := 0, sib_flowinfo := 0,
                  sib_addr := List.replicate 16 1,
                  sib_sid := 262 * 65536 + 7471, sib_sid_mask := 2 ^ 64 - 1,
                  sib_scope_id := 0 })) := by
  refine ⟨by decide, by decide, by decide⟩

/-- C3, evaluated at a reply in which an address entry sits between two path
records.  With `path_cnt` starting at 0 the stored route is the first path
record followed by the address entry, not the two path records; with
`path_cnt` starting at 1 the route has three slots and `ai_route_len` is
3 * 72 although the reply holds two path records. -/
theorem c3_route_is_contiguous_copy :
    spec_route ref_consts reply_interleaved
      = [{ path_slot 10 1 with type := 0 }, { path_slot 0 3 with type := 0 }] ∧
    (ucma_ib_save_resp ref_consts heap_ok 0 0 rai_src_dst reply_interleaved).map
      (fun r => (r.ai_route, r.ai_route_len))
      = some (some [{ path_slot 10 1 with type := 0 }, dest_slot], 2 * 72) ∧
    (ucma_ib_save_resp ref_consts heap_ok 0 1 rai_src_dst reply_interleaved).map
      (fun r => (r.ai_route, r.ai_route_len))
      = some (some [{ path_slot 10 1 with type := 0 }, dest_slot,
                    { path_slot 0 3 with type := 0 }], 3 * 72) := by
  refine ⟨by decide, by decide, by decide⟩

/-- C4, evaluated at a reply that consists of the header alone.  When
`path_cnt` happens to start at 0 the route is empty with length 0 and the
request is otherwise unchanged; when it starts at 1 the call allocates one
slot and copies 72 bytes from the null `path_data` (no result); when it starts
at -1 the allocation fails and `ai_route` is null. -/
theorem c4_route_depends_on_uninitialised_count :
    ucma_ib_save_resp ref_consts heap_ok 1 0 rai_dst_only reply_no_entries
      = some { rai_dst_only with ai_route := some [], ai_route_len := 0 } ∧
    ucma_ib_save_resp ref_consts heap_ok 1 1 rai_dst_only reply_no_entries = none ∧
    ucma_ib_save_resp ref_consts heap_ok 1 (-1) rai_dst_only reply_no_entries
      = some { rai_dst_only with ai_route := none } := by
  refine ⟨by decide, by decide, by decide⟩

/-! ## Response decoder: the loop -/

theorem save_resp_entry_frame (K : Consts) (H : Heap) (i : Nat) (s : save_state)
    (d : acm_ep_addr_data) (hd : s.msg.data[i]? = some d) :
    ∃ s1, save_resp_entry K H i s = some s1 ∧
      s1.msg.data.length = s.msg.data.length ∧
      (∀ k, k ≠ i → s1.msg.data[k]? = s.msg.data[k]?) ∧
      ((¬ is_source_entry K d ∨ s.rai.ai_src_len ≠ 0) → s1.rai = s.rai) := by
  unfold save_resp_entry
  simp only [hd]
  by_cases h1 : d.type = K.ACM_EP_INFO_PATH
  · simp only [h1, if_true]
    refine ⟨_, rfl, by simp, ?_, fun _ => rfl⟩
    intro k hk
    simp [List.getElem?_set_ne (Ne.symm hk)]
  · simp only [h1, if_false]
    by_cases h2 : d.type = K.ACM_EP_INFO_ADDRESS_IP
    · simp only [h2, if_true]
      by_cases h3 : d.flags &&& K.ACM_EP_FLAG_SOURCE = 0 ∨ s.rai.ai_src_len ≠ 0
      · simp only [h3, if_true]
        exact ⟨_, rfl, rfl, fun _ _ => rfl, fun _ => rfl⟩
      · simp only [h3, if_false]
        have hsrc : is_source_entry K d := by
          unfold is_source_entry
          exact ⟨Or.inl h2, fun h => h3 (Or.inl h)⟩
        have hlen : ¬ s.rai.ai_src_len ≠ 0 := fun h => h3 (Or.inr h)
        split
        · exact ⟨_, rfl, rfl, fun _ _ => rfl, fun h => by
            rcases h with h | h
            · exact absurd hsrc h
            · exact absurd h hlen⟩
        · exact ⟨_, rfl, rfl, fun _ _ => rfl, fun h => by
            rcases h with h | h
            · exact absurd hsrc h
            · exact absurd h hlen⟩
    · simp only [h2, if_false]
      by_cases h4 : d.type = K.ACM_EP_INFO_ADDRESS_IP6
      · simp only [h4, if_true]
        by_cases h3 : d.flags &&& K.ACM_EP_FLAG_SOURCE = 0 ∨ s.rai.ai_src_len ≠ 0
        · simp only [h3, if_true]
          exact ⟨_, rfl, rfl, fun _ _ => rfl, fun _ => rfl⟩
        · simp only [h3, if_false]
          have hsrc : is_source_entry K d := by
            unfold is_source_entry
            exact ⟨Or.inr h4, fun h => h3 (Or.inl h)⟩
          have hlen : ¬ s.rai.ai_src_len ≠ 0 := fun h => h3 (Or.inr h)
          split
          · exact ⟨_, rfl, rfl, fun _ _ => rfl, fun h => by
              rcases h with h | h
              · exact absurd hsrc h
              · exact absurd h hlen⟩
          · exact ⟨_, rfl, rfl, fun _ _ => rfl, fun h => by
              rcases h with h | h
              · exact absurd hsrc h
              · exact absurd h hlen⟩
      · simp only [h4, if_false]
        exact ⟨_, rfl, rfl, fun _ _ => rfl, fun _ => rfl⟩

theorem save_resp_entry_source (K : Consts) (H : Heap) (i : Nat) (s : save_state)
    (d : acm_ep_addr_data) (hK : K.Valid) (hd : s.msg.data[i]? = some d)
    (hsrc : is_source_entry K d) (hlen : s.rai.ai_src_len = 0) (hok : H.addr_ok i = true) :
    ∃ s1, save_resp_entry K H i s = some s1 ∧
      s1.msg = s.msg ∧
      s1.rai = { s.rai with ai_src_addr := some (spec_source_addr K d)
                            ai_src_len := spec_source_len K d } := by
  obtain ⟨h12, h13, h23, -⟩ := hK
  obtain ⟨hty, hfl⟩ := hsrc
  unfold save_resp_entry spec_source_addr spec_source_len
  simp only [hd]
  rcases hty with hty | hty
  · simp [hty, h12.symm, hfl, hlen, hok, memcpy]
  · have h2b : ¬ K.ACM_EP_INFO_ADDRESS_IP6 = K.ACM_EP_INFO_ADDRESS_IP := Ne.symm h23
    simp [hty, h13.symm, h2b, hfl, hlen, hok, memcpy]

theorem save_resp_loop_add (K : Consts) (H : Heap) (a b : Nat) :
    ∀ (i : Nat) (s : save_state),
      save_resp_loop K H (a + b) i s =
        match save_resp_loop K H a i s with
        | none => none
        | some s1 => save_resp_loop K H b (i + a) s1 := by
  induction a with
  | zero =>
    intro i s
    simp [save_resp_loop]
  | succ a ih =>
    intro i s
    have hab : a + 1 + b = (a + b) + 1 := by omega
    rw [hab]
    simp only [save_resp_loop]
    cases hstep : save_resp_entry K H i s with
    | none => rfl
    | some s1 =>
      simp only []
      rw [ih (i + 1) s1]
      have hi : i + 1 + a = i + (a + 1) := by omega
      rw [hi]

theorem save_resp_loop_frame (K : Consts) (H : Heap) (n : Nat) :
    ∀ (i : Nat) (s : save_state), i + n ≤ s.msg.data.length →
      (s.rai.ai_src_len ≠ 0 ∨
        ∀ k d, i ≤ k → k < i + n → s.msg.data[k]? = some d → ¬ is_source_entry K d) →
      ∃ s1, save_resp_loop K H n i s = some s1 ∧
        s1.rai = s.rai ∧
        s1.msg.data.length = s.msg.data.length ∧
        (∀ k, i + n ≤ k → s1.msg.data[k]? = s.msg.data[k]?) := by
  induction n with
  | zero =>
    intro i s _ _
    exact ⟨s, rfl, rfl, rfl, fun _ _ => rfl⟩
  | succ n ih =>
    intro i s hbound hcond
    have hi : i < s.msg.data.length := by omega
    obtain ⟨d, hd⟩ : ∃ d, s.msg.data[i]? = some d :=
      ⟨s.msg.data[i], List.getElem?_eq_getElem hi⟩
    obtain ⟨s1, hs1, hlen1, hdata1, hrai1⟩ := save_resp_entry_frame K H i s d hd
    have hrai : s1.rai = s.rai := by
      apply hrai1
      rcases hcond with h | h
      · exact Or.inr h
      · exact Or.inl (h i d (le_refl i) (by omega) hd)
    obtain ⟨s2, hs2, hrai2, hlen2, hdata2⟩ := ih (i + 1) s1 (by omega) (by
      rcases hcond with h | h
      · left
        rw [hrai]
        exact h
      · right
        intro k e hk1 hk2 hke
        rw [hdata1 k (by omega)] at hke
        exact h k e (by omega) (by omega) hke)
    refine ⟨s2, ?_, ?_, ?_, ?_⟩
    · simp only [save_resp_loop, hs1]
      exact hs2
    · rw [hrai2, hrai]
    · rw [hlen2, hlen1]
    · intro k hk
      rw [hdata2 k (by omega), hdata1 k (by omega)]

theorem spec_source_len_pos (K : Consts) (hK : K.Valid) (d : acm_ep_addr_data) :
    spec_source_len K d ≠ 0 := by
  obtain ⟨-, -, -, -, h4, h6, -⟩ := hK
  unfold spec_source_len
  split <;> omega

theorem save_resp_decode_source (K : Consts) (H : Heap) (path_cnt0 : Int)
    (rai : rdma_addrinfo) (msg : acm_msg) (j : Nat) (d : acm_ep_addr_data)
    (hK : K.Valid) (hlen : rai.ai_src_len = 0)
    (hcnt : (save_resp_cnt K msg).toNat ≤ msg.data.length)
    (hj : j < (save_resp_cnt K msg).toNat)
    (hd : msg.data[j]? = some d) (hsrc : is_source_entry K d)
    (hfirst : ∀ k e, k < j → msg.data[k]? = some e → ¬ is_source_entry K e)
    (hok : H.addr_ok j = true) :
    ∃ s, save_resp_decode K H path_cnt0 rai msg = some s ∧
      s.rai = { rai with ai_src_addr := some (spec_source_addr K d)
                         ai_src_len := spec_source_len K d } := by
  unfold save_resp_decode
  generalize hc : (save_resp_cnt K msg).toNat = cnt at hcnt hj
  have hsplit : cnt = j + (1 + (cnt - j - 1)) := by omega
  rw [hsplit, save_resp_loop_add]
  obtain ⟨s1, hs1, hrai1, hlen1, hdata1⟩ :=
    save_resp_loop_frame K H j 0 (save_resp_start path_cnt0 rai msg)
      (by simp only [save_resp_start]; omega)
      (Or.inr (fun k e _ hk hke => hfirst k e (by omega) hke))
  rw [hs1]
  simp only [save_resp_start] at hrai1 hlen1 hdata1
  simp only [save_resp_loop_add K H 1 (cnt - j - 1), save_resp_loop, Nat.zero_add]
  have hd1 : s1.msg.data[j]? = some d := by
    rw [hdata1 j (by omega)]
    exact hd
  obtain ⟨s2, hs2, hmsg2, hrai2⟩ :=
    save_resp_entry_source K H j s1 d hK hd1 hsrc (by rw [hrai1]; exact hlen) hok
  rw [hs2]
  simp only []
  obtain ⟨s3, hs3, hrai3, -, -⟩ :=
    save_resp_loop_frame K H (cnt - j - 1) (j + 1) s2
      (by rw [hmsg2, hlen1]; omega)
      (Or.inl (by rw [hrai2]; exact spec_source_len_pos K hK d))
  refine ⟨s3, hs3, ?_⟩
  rw [hrai3, hrai2, hrai1]

theorem save_resp_route_src (K : Consts) (H : Heap) (s : save_state) (r : rdma_addrinfo)
    (h : save_resp_route K H s = some r) :
    r.ai_src_addr = s.rai.ai_src_addr ∧ r.ai_src_len = s.rai.ai_src_len := by
  unfold save_resp_route at h
  split at h
  · simp only [Option.some.injEq] at h
    subst h
    exact ⟨rfl, rfl⟩
  · split at h
    · simp only [] at h
      split at h
      · simp only [Option.some.injEq] at h
        subst h
        exact ⟨rfl, rfl⟩
      · simp at h
    · simp only [] at h
      split at h
      · simp only [Option.some.injEq] at h
        subst h
        exact ⟨rfl, rfl⟩
      · simp at h

theorem ucma_ib_convert_addr_src (K : Consts) (H : Heap) (rai r : rdma_addrinfo)
    (msg : acm_msg) (path : Option Nat)
    (h : ucma_ib_convert_addr K H rai msg path = some r) :
    r = rai ∨ ∃ sib, r.ai_src_addr = some (sockaddr.ib sib) := by
  unfold ucma_ib_convert_addr at h
  split at h
  · left
    simpa using h.symm
  · split at h
    · left
      simpa using h.symm
    · split at h
      · left
        simpa using h.symm
      · split at h
        · simp at h
        · simp only [] at h
          split at h
          · simp at h
          · split at h
            · simp at h
            · right
              simp only [Option.some.injEq] at h
              subst h
              exact ⟨_, rfl⟩

theorem lor_ne_zero_right (a m : Nat) (hm : m ≠ 0) : a ||| m ≠ 0 := by
  obtain ⟨i, hi⟩ := Nat.ne_zero_implies_bit_true hm
  intro h
  have hbit : (a ||| m).testBit i = true := by
    rw [Nat.testBit_or, hi]
    simp
  rw [h] at hbit
  simp at hbit

/-- What the loop does at an entry tagged `ACM_EP_INFO_PATH`, whatever the
entry's flags: as soon as the mask `PRIMARY | OUTBOUND` is non-zero the test
on lines 159-160 succeeds, and `pri_path` is set to the slot `i` places after
the first path record. -/
theorem save_resp_entry_path (K : Consts) (H : Heap) (i : Nat) (s : save_state)
    (d : acm_ep_addr_data) (hd : s.msg.data[i]? = some d)
    (hty : d.type = K.ACM_EP_INFO_PATH)
    (hmask : K.IBV_PATH_FLAG_PRIMARY ||| K.IBV_PATH_FLAG_OUTBOUND ≠ 0) :
    ∃ s1, save_resp_entry K H i s = some s1 ∧ s1.rai = s.rai ∧
      s1.path_cnt = s.path_cnt + 1 ∧
      s1.path_data = some (s.path_data.getD i) ∧
      s1.pri_path = some (s.path_data.getD i + i) := by
  unfold save_resp_entry
  simp only [hd, hty, if_true]
  have hne := lor_ne_zero_right d.flags _ hmask
  cases hpd : s.path_data with
  | none => exact ⟨_, rfl, rfl, rfl, by simp, by simp [hne]⟩
  | some f => exact ⟨_, rfl, rfl, rfl, by simp, by simp [hne]⟩

theorem save_resp_entry_not_path (K : Consts) (H : Heap) (i : Nat) (s : save_state)
    (d : acm_ep_addr_data) (hd : s.msg.data[i]? = some d)
    (hty : d.type ≠ K.ACM_EP_INFO_PATH) :
    ∃ s1, save_resp_entry K H i s = some s1 ∧ s1.msg = s.msg ∧
      s1.path_data = s.path_data ∧ s1.pri_path = s.pri_path ∧ s1.path_cnt = s.path_cnt := by
  unfold save_resp_entry
  simp only [hd, hty, if_false]
  split
  · split
    · exact ⟨_, rfl, rfl, rfl, rfl, rfl⟩
    · split <;> exact ⟨_, rfl, rfl, rfl, rfl, rfl⟩
  · split
    · split
      · exact ⟨_, rfl, rfl, rfl, rfl, rfl⟩
      · split <;> exact ⟨_, rfl, rfl, rfl, rfl, rfl⟩
    · exact ⟨_, rfl, rfl, rfl, rfl, rfl⟩

theorem save_resp_loop_not_path (K : Consts) (H : Heap) (n : Nat) :
    ∀ (i : Nat) (s : save_state), i + n ≤ s.msg.data.length →
      (∀ k d, i ≤ k → k < i + n → s.msg.data[k]? = some d → d.type ≠ K.ACM_EP_INFO_PATH) →
      ∃ s1, save_resp_loop K H n i s = some s1 ∧ s1.msg = s.msg ∧
        s1.path_data = s.path_data ∧ s1.pri_path = s.pri_path ∧
        s1.path_cnt = s.path_cnt := by
  induction n with
  | zero =>
    intro i s _ _
    exact ⟨s, rfl, rfl, rfl, rfl, rfl⟩
  | succ n ih =>
    intro i s hbound hcond
    have hi : i < s.msg.data.length := by omega
    obtain ⟨d, hd⟩ : ∃ d, s.msg.data[i]? = some d :=
      ⟨s.msg.data[i], List.getElem?_eq_getElem hi⟩
    obtain ⟨s1, hs1, hmsg1, hpd1, hpp1, hpc1⟩ :=
      save_resp_entry_not_path K H i s d hd (hcond i d (le_refl i) (by omega) hd)
    obtain ⟨s2, hs2, hmsg2, hpd2, hpp2, hpc2⟩ := ih (i + 1) s1 (by rw [hmsg1]; omega) (by
      intro k e hk1 hk2 hke
      rw [hmsg1] at hke
      exact hcond k e (by omega) (by omega) hke)
    refine ⟨s2, ?_, ?_, ?_, ?_, ?_⟩
    · simp only [save_resp_loop, hs1]
      exact hs2
    · rw [hmsg2, hmsg1]
    · rw [hpd2, hpd1]
    · rw [hpp2, hpp1]
    · rw [hpc2, hpc1]

/-- What the code does on a reply without any path record, for every initial
value of `path_cnt`: the loop selects no representative path and leaves
`path_data` null and `path_cnt` at its initial value, and the whole function is
the route step applied to the loop state, the conversion being skipped
whatever `af_ib_support` is. -/
theorem save_resp_without_path_records (K : Consts) (H : Heap) (af_ib_support : Int)
    (path_cnt0 : Int) (rai : rdma_addrinfo) (msg : acm_msg)
    (hcnt : (save_resp_cnt K msg).toNat ≤ msg.data.length)
    (hnone : ∀ k d, k < (save_resp_cnt K msg).toNat → msg.data[k]? = some d →
      d.type ≠ K.ACM_EP_INFO_PATH) :
    ∃ s, save_resp_decode K H path_cnt0 rai msg = some s ∧
      s.pri_path = none ∧ s.path_data = none ∧ s.path_cnt = path_cnt0 ∧
      ucma_ib_save_resp K H af_ib_support path_cnt0 rai msg = save_resp_route K H s := by
  obtain ⟨s, hs, -, hpd, hpp, hpc⟩ :=
    save_resp_loop_not_path K H (save_resp_cnt K msg).toNat 0
      (save_resp_start path_cnt0 rai msg)
      (by simp only [save_resp_start]; omega)
      (fun k d _ hk hkd => hnone k d (by omega) hkd)
  simp only [save_resp_start] at hpd hpp hpc
  refine ⟨s, hs, hpp, hpd, hpc, ?_⟩
  unfold ucma_ib_save_resp
  rw [show save_resp_decode K H path_cnt0 rai msg = some s from hs]
  simp only []
  cases hroute : save_resp_route K H s with
  | none => rfl
  | some r1 =>
    simp only [hpp, ucma_ib_convert_addr]
    split <;> rfl

/-! ## Response decoder: claim C10 -/

/-- C10: first-wins policy of `ucma_ib_save_resp`.  For a request with no
source address (`ai_src_len = 0`) and a reply whose entry `j` is the first
address entry flagged `ACM_EP_FLAG_SOURCE` (any number of further SOURCE
entries may follow), with the allocation made for entry `j` succeeding: the
decoding loop completes and leaves as source address a fresh structure holding
the first 4 (IPv4 tag) or 16 (IPv6 tag) payload bytes of entry `j`, with the
matching length, and changes nothing else in the request; whenever the whole
function returns with native conversion disabled, the request it returns has
that source address and length; and whatever `af_ib_support` is, the returned
source address is either that one or the native address the conversion put in
its place, never one taken from a later SOURCE entry. -/
theorem c10_first_source_entry_wins (K : Consts) (H : Heap) (path_cnt0 : Int)
    (rai : rdma_addrinfo) (msg : acm_msg) (j : Nat) (d : acm_ep_addr_data)
    (hK : K.Valid) (hlen : rai.ai_src_len = 0)
    (hcnt : (save_resp_cnt K msg).toNat ≤ msg.data.length)
    (hj : j < (save_resp_cnt K msg).toNat)
    (hd : msg.data[j]? = some d) (hsrc : is_source_entry K d)
    (hfirst : ∀ k e, k < j → msg.data[k]? = some e → ¬ is_source_entry K e)
    (hok : H.addr_ok j = true) :
    (∃ s, save_resp_decode K H path_cnt0 rai msg = some s ∧
      s.rai = { rai with ai_src_addr := some (spec_source_addr K d)
                         ai_src_len := spec_source_len K d }) ∧
    (∀ r, ucma_ib_save_resp K H 0 path_cnt0 rai msg = some r →
      r.ai_src_addr = some (spec_source_addr K d) ∧ r.ai_src_len = spec_source_len K d) ∧
    (∀ af_ib_support r, ucma_ib_save_resp K H af_ib_support path_cnt0 rai msg = some r →
      (r.ai_src_addr = some (spec_source_addr K d) ∧ r.ai_src_len = spec_source_len K d) ∨
      ∃ sib, r.ai_src_addr = some (sockaddr.ib sib)) := by
  obtain ⟨s, hs, hrai⟩ :=
    save_resp_decode_source K H path_cnt0 rai msg j d hK hlen hcnt hj hd hsrc hfirst hok
  refine ⟨⟨s, hs, hrai⟩, ?_, ?_⟩
  · intro r hr
    unfold ucma_ib_save_resp at hr
    rw [hs] at hr
    simp only [] at hr
    cases hroute : save_resp_route K H s with
    | none => simp [hroute] at hr
    | some r1 =>
      rw [hroute] at hr
      simp only [ne_eq, not_true_eq_false, if_false, Option.some.injEq] at hr
      subst hr
      obtain ⟨h1, h2⟩ := save_resp_route_src K H s r1 hroute
      rw [h1, h2, hrai]
      exact ⟨rfl, rfl⟩
  · intro af r hr
    unfold ucma_ib_save_resp at hr
    rw [hs] at hr
    simp only [] at hr
    cases hroute : save_resp_route K H s with
    | none => simp [hroute] at hr
    | some r1 =>
      rw [hroute] at hr
      simp only [] at hr
      obtain ⟨h1, h2⟩ := save_resp_route_src K H s r1 hroute
      have hr1 : r1.ai_src_addr = some (spec_source_addr K d) ∧
          r1.ai_src_len = spec_source_len K d := by
        rw [h1, h2, hrai]
        exact ⟨rfl, rfl⟩
      split at hr
      · rcases ucma_ib_convert_addr_src K H r1 r s.msg s.pri_path hr with h | h
        · left
          rw [h]
          exact hr1
        · right
          exact h
      · left
        simp only [Option.some.injEq] at hr
        subst hr
        exact hr1

/-- Witness for C10: a reply with a destination entry and then two SOURCE
entries; the resolved source address is 10.0.0.7, the first one. -/
theorem c10_first_source_entry_wins_witness :
    (ref_consts.Valid ∧ rai_dst_only.ai_src_len = 0 ∧
      (save_resp_cnt ref_consts reply_two_sources).toNat ≤ reply_two_sources.data.length ∧
      1 < (save_resp_cnt ref_consts reply_two_sources).toNat ∧
      reply_two_sources.data[1]? = some (source_slot 7) ∧
      is_source_entry ref_consts (source_slot 7) ∧
      heap_ok.addr_ok 1 = true) ∧
    (∃ s, save_resp_decode ref_consts heap_ok 0 rai_dst_only reply_two_sources = some s ∧
      s.rai = { rai_dst_only with
                ai_src_addr := some (spec_source_addr ref_consts (source_slot 7))
                ai_src_len := spec_source_len ref_consts (source_slot 7) }) ∧
    (∀ r, ucma_ib_save_resp ref_consts heap_ok 0 0 rai_dst_only reply_two_sources = some r →
      r.ai_src_addr = some (spec_source_addr ref_consts (source_slot 7)) ∧
      r.ai_src_len = spec_source_len ref_consts (source_slot 7)) :=
  ⟨⟨valid_ref_consts, rfl, by decide, by decide, by decide, by decide, rfl⟩,
   (c10_first_source_entry_wins ref_consts heap_ok 0 rai_dst_only reply_two_sources 1
     (source_slot 7) valid_ref_consts rfl (by decide) (by decide) (by decide) (by decide)
     (fun k e hk hke => by
        have hk0 : k = 0 := by omega
        subst hk0
        have he : e = dest_slot := by
          simpa [reply_two_sources] using hke.symm
        subst he
        decide)
     rfl).1,
   (c10_first_source_entry_wins ref_consts heap_ok 0 rai_dst_only reply_two_sources 1
     (source_slot 7) valid_ref_consts rfl (by decide) (by decide) (by decide) (by decide)
     (fun k e hk hke => by
        have hk0 : k = 0 := by omega
        subst hk0
        have he : e = dest_slot := by
          simpa [reply_two_sources] using hke.symm
        subst he
        decide)
     rfl).2.1⟩

/-! ## Native address synthesis: claims C11, C12, C13 -/

theorem sin6_port_of_eq (a : sockaddr) : sin6_port_of a = sin_port_of a := by
  cases a <;> rfl

theorem spec_port_eq (a : sockaddr) (p : Nat) (h : spec_port a = some p) :
    sin_port_of a = p := by
  cases a with
  | in4 a => simpa [spec_port, sin_port_of] using h
  | in6 a => simpa [spec_port, sin_port_of] using h
  | ib a => simp [spec_port] at h

theorem set_sid_value (ps p : Nat) (hp : p < 2 ^ 16) (hps : ps < 2 ^ 48) :
    htonll (((ps % 2 ^ 64) <<< 16) % 2 ^ 64 + ntohs p) = (ps <<< 16) + p := by
  unfold htonll ntohs
  rw [Nat.shiftLeft_eq, Nat.shiftLeft_eq]
  have h1 : ps % 2 ^ 64 = ps := Nat.mod_eq_of_lt (by omega)
  rw [h1]
  have h2 : ps * 2 ^ 16 < 2 ^ 64 := by omega
  rw [Nat.mod_eq_of_lt h2, Nat.mod_eq_of_lt hp]
  exact Nat.mod_eq_of_lt (by omega)

theorem ucma_set_sid_eq (K : Consts) (ps p : Nat) (a : sockaddr) (sib : sockaddr_ib)
    (hport : sin_port_of a = p) (hp : p < 2 ^ 16) (hps : ps < 2 ^ 48) :
    ucma_set_sid K ps (some a) sib =
      some { sib with
             sib_sid := (ps <<< 16) + p
             sib_sid_mask := if p = 0 then htonll K.RDMA_IB_IP_PS_MASK else 2 ^ 64 - 1 } := by
  unfold ucma_set_sid
  simp only [sin6_port_of_eq, ite_self, hport, Nat.mod_eq_of_lt hp, set_sid_value ps p hp hps]
  by_cases h0 : p = 0
  · simp [h0]
  · simp [h0]

/-- C11: service-identifier rule of `ucma_set_sid`.  For every port space `ps`
(below 2^48, so that the 64-bit shift loses nothing) and every IPv4 or IPv6
address whose 16-bit port is `p`: the service id carried by `sib_sid` is
`(ps << 16) + p`, whose low 16 bits are `p`; the mask is
`htonll(RDMA_IB_IP_PS_MASK)` when `p = 0` and all-ones, 2^64 - 1, when
`p != 0`. -/
theorem c11_service_id_rule (K : Consts) (ps p : Nat) (a : sockaddr) (sib : sockaddr_ib)
    (hport : spec_port a = some p) (hp : p < 2 ^ 16) (hps : ps < 2 ^ 48) :
    ucma_set_sid K ps (some a) sib =
      some { sib with
             sib_sid := (ps <<< 16) + p
             sib_sid_mask := if p = 0 then htonll K.RDMA_IB_IP_PS_MASK else 2 ^ 64 - 1 } ∧
    ((ps <<< 16) + p) % 2 ^ 16 = p := by
  refine ⟨ucma_set_sid_eq K ps p a sib (spec_port_eq a p hport) hp hps, ?_⟩
  rw [Nat.shiftLeft_eq]
  omega

/-- Witness for C11: port space 262 and an IPv4 address with port 7471. -/
theorem c11_service_id_rule_witness :
    (spec_port (sockaddr.in4 { sin_family := 2, sin_port := 7471, sin_addr := [10, 0, 0, 2] })
        = some 7471 ∧ 7471 < 2 ^ 16 ∧ 262 < 2 ^ 48) ∧
    ucma_set_sid ref_consts 262
        (some (sockaddr.in4 { sin_family := 2, sin_port := 7471, sin_addr := [10, 0, 0, 2] }))
        zero_sockaddr_ib
      = some { zero_sockaddr_ib with
               sib_sid := (262 <<< 16) + 7471
               sib_sid_mask := if 7471 = 0 then htonll ref_consts.RDMA_IB_IP_PS_MASK
                               else 2 ^ 64 - 1 } :=
  ⟨⟨rfl, by decide, by decide⟩,
   (c11_service_id_rule ref_consts 262 7471
      (sockaddr.in4 { sin_family := 2, sin_port := 7471, sin_addr := [10, 0, 0, 2] })
      zero_sockaddr_ib rfl (by decide) (by decide)).1⟩

theorem ucma_set_sid_fields (K : Consts) (ps : Nat) (a : sockaddr) (sib : sockaddr_ib) :
    ∃ sid mask, ucma_set_sid K ps (some a) sib
      = some { sib with sib_sid := sid, sib_sid_mask := mask } := by
  unfold ucma_set_sid
  simp only [sin6_port_of_eq, ite_self]
  by_cases h0 : sin_port_of a % 2 ^ 16 ≠ 0
  · rw [if_pos h0]
    exact ⟨_, _, rfl⟩
  · rw [if_neg h0]
    exact ⟨_, _, rfl⟩

theorem flowinfo_value (x : Nat) :
    htonl (ntohl x >>> 8) = (x % 2 ^ 32) >>> 8 ∧ htonl (ntohl x >>> 8) < 2 ^ 24 := by
  unfold htonl ntohl
  rw [Nat.shiftRight_eq_div_pow]
  have hx : x % 2 ^ 32 < 2 ^ 32 := Nat.mod_lt _ (by decide)
  have hd : x % 2 ^ 32 / 2 ^ 8 < 2 ^ 24 := by omega
  rw [Nat.mod_eq_of_lt (by omega)]
  exact ⟨rfl, hd⟩

theorem memcpy_gid (gid : List Nat) (h : gid.length = 16) :
    memcpy zero_sockaddr_ib.sib_addr gid 16 = gid := by
  unfold memcpy zero_sockaddr_ib
  simp [List.take_of_length_le (Nat.le_of_eq h)]

/-- C12: postcondition of `ucma_ib_convert_addr`.  For every request whose
source and destination addresses are present and every representative path
(a slot of the message buffer whose record has 16-byte `sgid` and `dgid`), with
both allocations succeeding, the call returns the request with: a native
source address whose `sib_addr` is the path's `sgid` and a native destination
address whose `sib_addr` is the path's `dgid`, both with family `AF_IB`,
`sib_pkey` equal to the path's `pkey` and `sib_flowinfo` carrying the path's
`flowlabel_hoplimit` shifted right by 8 bits (a value below 2^24); both
lengths `sizeof(struct sockaddr_ib)`; family `AF_IB`; port space `RDMA_PS_IB`;
every other member as before. -/
theorem c12_native_synthesis (K : Consts) (H : Heap) (rai : rdma_addrinfo) (msg : acm_msg)
    (p : Nat) (slot : acm_ep_addr_data) (sa da : sockaddr)
    (hsrc_ok : H.sib_src_ok = true) (hdst_ok : H.sib_dst_ok = true)
    (hslot : msg.data[p]? = some slot)
    (hsa : rai.ai_src_addr = some sa) (hda : rai.ai_dst_addr = some da)
    (hsgid : (K.info_path slot.info).sgid.length = 16)
    (hdgid : (K.info_path slot.info).dgid.length = 16) :
    ∃ src dst : sockaddr_ib,
      ucma_ib_convert_addr K H rai msg (some p) =
        some { rai with
               ai_src_addr := some (sockaddr.ib src)
               ai_src_len := K.sizeof_sockaddr_ib
               ai_dst_addr := some (sockaddr.ib dst)
               ai_dst_len := K.sizeof_sockaddr_ib
               ai_family := K.AF_IB
               ai_port_space := K.RDMA_PS_IB } ∧
      src.sib_addr = (K.info_path slot.info).sgid ∧
      dst.sib_addr = (K.info_path slot.info).dgid ∧
      src.sib_family = K.AF_IB ∧ dst.sib_family = K.AF_IB ∧
      src.sib_pkey = (K.info_path slot.info).pkey ∧
      dst.sib_pkey = (K.info_path slot.info).pkey ∧
      src.sib_flowinfo = ((K.info_path slot.info).flowlabel_hoplimit % 2 ^ 32) >>> 8 ∧
      dst.sib_flowinfo = ((K.info_path slot.info).flowlabel_hoplimit % 2 ^ 32) >>> 8 ∧
      src.sib_flowinfo < 2 ^ 24 ∧ dst.sib_flowinfo < 2 ^ 24 := by
  obtain ⟨hflow, hlt⟩ := flowinfo_value (K.info_path slot.info).flowlabel_hoplimit
  unfold ucma_ib_convert_addr
  simp only [hsrc_ok, hdst_ok, hslot, hsa, hda, Bool.true_eq_false, if_false]
  obtain ⟨sid1, mask1, h1⟩ := ucma_set_sid_fields K rai.ai_port_space sa
    { zero_sockaddr_ib with
      sib_family := K.AF_IB
      sib_pkey := (K.info_path slot.info).pkey
      sib_flowinfo := htonl (ntohl (K.info_path slot.info).flowlabel_hoplimit >>> 8)
      sib_addr := memcpy zero_sockaddr_ib.sib_addr (K.info_path slot.info).sgid 16 }
  obtain ⟨sid2, mask2, h2⟩ := ucma_set_sid_fields K rai.ai_port_space da
    { zero_sockaddr_ib with
      sib_family := K.AF_IB
      sib_pkey := (K.info_path slot.info).pkey
      sib_flowinfo := htonl (ntohl (K.info_path slot.info).flowlabel_hoplimit >>> 8)
      sib_addr := memcpy zero_sockaddr_ib.sib_addr (K.info_path slot.info).dgid 16 }
  rw [h1]
  simp only []
  rw [h2]
  refine ⟨_, _, rfl, ?_, ?_, rfl, rfl, rfl, rfl, ?_, ?_, ?_, ?_⟩
  · exact memcpy_gid _ hsgid
  · exact memcpy_gid _ hdgid
  · exact hflow
  · exact hflow
  · exact hlt
  · exact hlt

/-- Witness for C12: the IPv4 request with source and destination, the path
record of `reply_one_path`. -/
theorem c12_native_synthesis_witness :
    (heap_ok.sib_src_ok = true ∧ heap_ok.sib_dst_ok = true ∧
      reply_one_path.data[0]? = some (path_slot 10 1) ∧
      (ref_consts.info_path (path_slot 10 1).info).sgid.length = 16 ∧
      (ref_consts.info_path (path_slot 10 1).info).dgid.length = 16) ∧
    ∃ src dst : sockaddr_ib,
      ucma_ib_convert_addr ref_consts heap_ok rai_src_dst reply_one_path (some 0) =
        some { rai_src_dst with
               ai_src_addr := some (sockaddr.ib src)
               ai_src_len := 48
               ai_dst_addr := some (sockaddr.ib dst)
               ai_dst_len := 48
               ai_family := 27
               ai_port_space := 319 } ∧
      src.sib_addr = (ref_consts.info_path (path_slot 10 1).info).sgid ∧
      dst.sib_addr = (ref_consts.info_path (path_slot 10 1).info).dgid :=
  ⟨⟨rfl, rfl, by decide, by decide, by decide⟩,
   match c12_native_synthesis ref_consts heap_ok rai_src_dst reply_one_path 0 (path_slot 10 1)
      (sockaddr.in4 { sin_family := 2, sin_port := 0, sin_addr := [10, 0, 0, 1] })
      (sockaddr.in4 { sin_family := 2, sin_port := 7471, sin_addr := [10, 0, 0, 2] })
      rfl rfl (by decide) rfl rfl (by decide) (by decide) with
   | ⟨src, dst, h, hs, hd, _⟩ => ⟨src, dst, h, hs, hd⟩⟩

/-- C13, evaluated at a request without source address and a reply that holds
one path record and no SOURCE entry, with `af_ib_support` set and every
allocation succeeding: the loop selects the path record, the conversion runs,
and `ucma_set_sid` reads `addr->sa_family` through the null `ai_src_addr`; there
is no result, and no native source address with port 0 is built. -/
theorem c13_null_source_is_dereferenced :
    rai_dst_only.ai_src_addr = none ∧
    (save_resp_decode ref_consts heap_ok 0 rai_dst_only reply_one_path).map
      (fun s => (s.rai.ai_src_addr, s.pri_path)) = some (none, some 0) ∧
    ucma_set_sid ref_consts rai_dst_only.ai_port_space none zero_sockaddr_ib = none ∧
    ucma_ib_convert_addr ref_consts heap_ok rai_dst_only reply_one_path (some 0) = none ∧
    ucma_ib_save_resp ref_consts heap_ok 1 0 rai_dst_only reply_one_path = none := by
  refine ⟨rfl, by decide, rfl, by decide, by decide⟩

/-! ## Connection manager: claims C14, C15 -/

/-- C14: channel unavailable.  When `socket` fails (negative return) or
`connect` fails (non-zero return) in `ucma_ib_init`, the global `sock` is left
non-positive, and `ucma_ib_resolve` called with that value makes no step at
all (no send, no receive) and returns the request unchanged, for every
request and environment; `ucma_ib_resolve` does not assign `sock`, so this
holds for each later call. -/
theorem c14_unavailable_channel_no_op (K : Consts) (E : Env) (af_ib_support : Int)
    (rai : rdma_addrinfo) (socket_ret connect_ret : Int)
    (hfail : socket_ret < 0 ∨ connect_ret ≠ 0) :
    (ucma_ib_init socket_ret connect_ret).1 ≤ 0 ∧
    ucma_ib_resolve K E (ucma_ib_init socket_ret connect_ret).1 af_ib_support rai
      = ([], some rai) := by
  have hsock : (ucma_ib_init socket_ret connect_ret).1 ≤ 0 := by
    unfold ucma_ib_init
    by_cases h1 : socket_ret < 0
    · simp only [h1, if_true]
      omega
    · rcases hfail with h | h
      · exact absurd h h1
      · simp [h1, h]
  refine ⟨hsock, ?_⟩
  unfold ucma_ib_resolve
  simp [hsock]

/-- Witness for C14: `socket` succeeds with descriptor 3 and `connect` fails. -/
theorem c14_unavailable_channel_no_op_witness :
    ((3 : Int) < 0 ∨ (-1 : Int) ≠ 0) ∧
    ucma_ib_resolve ref_consts env_status_one (ucma_ib_init 3 (-1)).1 1 rai_src_dst
      = ([], some rai_src_dst) :=
  ⟨Or.inr (by decide),
   (c14_unavailable_channel_no_op ref_consts env_status_one 1 rai_src_dst 3 (-1)
      (Or.inr (by decide))).2⟩

/-- C15, evaluated.  With no open channel (`sock` still 0, or `socket` failed,
or `connect` failed) `ucma_ib_cleanup` makes no call.  After a successful
`ucma_ib_init` with descriptor 3, one cleanup shuts down and closes descriptor
3, and a second cleanup shuts down and closes descriptor 3 once more: two
calls do not have the effect of one. -/
theorem c15_second_cleanup_repeats_close :
    ucma_ib_cleanup 0 = [] ∧
    ucma_ib_cleanup (ucma_ib_init (-1) 0).1 = [] ∧
    ucma_ib_cleanup (ucma_ib_init 3 (-1)).1 = [] ∧
    (ucma_ib_init 3 0).1 = 3 ∧
    cleanup_calls (ucma_ib_init 3 0).1 1 = [Sys.shutdown 3, Sys.close 3] ∧
    cleanup_calls (ucma_ib_init 3 0).1 2
      = [Sys.shutdown 3, Sys.close 3, Sys.shutdown 3, Sys.close 3] := by
  refine ⟨by decide, by decide, by decide, by decide, by decide, by decide⟩

/-! ## Response decoder: claim C16 -/

theorem same_outside_refl (a : rdma_addrinfo) : same_outside_source_and_route a a :=
  ⟨rfl, rfl, rfl, rfl, rfl, rfl⟩

theorem same_outside_trans (a b c : rdma_addrinfo)
    (hab : same_outside_source_and_route a b) (hbc : same_outside_source_and_route b c) :
    same_outside_source_and_route a c := by
  obtain ⟨a1, a2, a3, a4, a5, a6⟩ := hab
  obtain ⟨b1, b2, b3, b4, b5, b6⟩ := hbc
  exact ⟨a1.trans b1, a2.trans b2, a3.trans b3, a4.trans b4, a5.trans b5, a6.trans b6⟩

theorem save_resp_entry_outside (K : Consts) (H : Heap) (i : Nat) (s : save_state)
    (d : acm_ep_addr_data) (hd : s.msg.data[i]? = some d) :
    ∃ s1, save_resp_entry K H i s = some s1 ∧
      same_outside_source_and_route s1.rai s.rai ∧
      s1.msg.data.length = s.msg.data.length := by
  unfold save_resp_entry
  simp only [hd]
  split_ifs <;>
    exact ⟨_, rfl, ⟨rfl, rfl, rfl, rfl, rfl, rfl⟩, by simp⟩

theorem save_resp_loop_outside (K : Consts) (H : Heap) (n : Nat) :
    ∀ (i : Nat) (s : save_state), i + n ≤ s.msg.data.length →
      ∃ s1, save_resp_loop K H n i s = some s1 ∧
        same_outside_source_and_route s1.rai s.rai ∧
        s1.msg.data.length = s.msg.data.length := by
  induction n with
  | zero =>
    intro i s _
    exact ⟨s, rfl, same_outside_refl _, rfl⟩
  | succ n ih =>
    intro i s hbound
    have hi : i < s.msg.data.length := by omega
    obtain ⟨d, hd⟩ : ∃ d, s.msg.data[i]? = some d :=
      ⟨s.msg.data[i], List.getElem?_eq_getElem hi⟩
    obtain ⟨s1, hs1, hout1, hlen1⟩ := save_resp_entry_outside K H i s d hd
    obtain ⟨s2, hs2, hout2, hlen2⟩ := ih (i + 1) s1 (by omega)
    refine ⟨s2, ?_, same_outside_trans _ _ _ hout2 hout1, by rw [hlen2, hlen1]⟩
    simp only [save_resp_loop, hs1]
    exact hs2

theorem save_resp_route_outside (K : Consts) (H : Heap) (s : save_state) (r : rdma_addrinfo)
    (h : save_resp_route K H s = some r) :
    same_outside_source_and_route r s.rai := by
  unfold save_resp_route at h
  split at h
  · simp only [Option.some.injEq] at h
    subst h
    exact ⟨rfl, rfl, rfl, rfl, rfl, rfl⟩
  · split at h
    · simp only [] at h
      split at h
      · simp only [Option.some.injEq] at h
        subst h
        exact ⟨rfl, rfl, rfl, rfl, rfl, rfl⟩
      · simp at h
    · simp only [] at h
      split at h
      · simp only [Option.some.injEq] at h
        subst h
        exact ⟨rfl, rfl, rfl, rfl, rfl, rfl⟩
      · simp at h

theorem save_resp_no_conversion (K : Consts) (H : Heap) (path_cnt0 : Int)
    (rai : rdma_addrinfo) (msg : acm_msg) (s : save_state)
    (hs : save_resp_decode K H path_cnt0 rai msg = some s) :
    ucma_ib_save_resp K H 0 path_cnt0 rai msg = save_resp_route K H s := by
  unfold ucma_ib_save_resp
  rw [hs]
  simp only []
  cases save_resp_route K H s with
  | none => rfl
  | some r1 => simp

theorem save_resp_entry_count (K : Consts) (H : Heap) (p0 : Int) (i : Nat)
    (s s1 : save_state) (hstep : save_resp_entry K H i s = some s1)
    (hnone : s.path_data = none → s.path_cnt = p0)
    (hsome : ∀ f, s.path_data = some f →
      p0 + 1 ≤ s.path_cnt ∧ (f : Int) + (s.path_cnt - p0) ≤ (i : Int)) :
    (s1.path_data = none → s1.path_cnt = p0) ∧
    (∀ f, s1.path_data = some f →
      p0 + 1 ≤ s1.path_cnt ∧ (f : Int) + (s1.path_cnt - p0) ≤ ((i + 1 : Nat) : Int)) := by
  unfold save_resp_entry at hstep
  cases hd : s.msg.data[i]? with
  | none => simp [hd] at hstep
  | some d =>
    simp only [hd] at hstep
    by_cases hty : d.type = K.ACM_EP_INFO_PATH
    · simp only [hty, if_true, Option.some.injEq] at hstep
      subst hstep
      cases hpd : s.path_data with
      | none =>
        have hc := hnone hpd
        refine ⟨by simp, ?_⟩
        intro f hf
        simp only [hpd, Option.some.injEq] at hf
        subst hf
        simp only [hc]
        push_cast
        omega
      | some g =>
        obtain ⟨h1, h2⟩ := hsome g hpd
        refine ⟨by simp, ?_⟩
        intro f hf
        simp only [hpd, Option.some.injEq] at hf
        subst hf
        simp only []
        push_cast
        omega
    · have hkeep : s1.path_data = s.path_data ∧ s1.path_cnt = s.path_cnt := by
        simp only [hty, if_false] at hstep
        split_ifs at hstep <;>
          (simp only [Option.some.injEq] at hstep; subst hstep; exact ⟨rfl, rfl⟩)
      rw [hkeep.1, hkeep.2]
      refine ⟨hnone, ?_⟩
      intro f hf
      obtain ⟨h1, h2⟩ := hsome f hf
      refine ⟨h1, ?_⟩
      push_cast
      omega

theorem save_resp_loop_count (K : Consts) (H : Heap) (p0 : Int) (n : Nat) :
    ∀ (i : Nat) (s s1 : save_state), save_resp_loop K H n i s = some s1 →
      (s.path_data = none → s.path_cnt = p0) →
      (∀ f, s.path_data = some f →
        p0 + 1 ≤ s.path_cnt ∧ (f : Int) + (s.path_cnt - p0) ≤ (i : Int)) →
      (s1.path_data = none → s1.path_cnt = p0) ∧
      (∀ f, s1.path_data = some f →
        p0 + 1 ≤ s1.path_cnt ∧ (f : Int) + (s1.path_cnt - p0) ≤ ((i + n : Nat) : Int)) := by
  induction n with
  | zero =>
    intro i s s1 hloop hnone hsome
    simp only [save_resp_loop, Option.some.injEq] at hloop
    subst hloop
    exact ⟨hnone, hsome⟩
  | succ n ih =>
    intro i s s1 hloop hnone hsome
    simp only [save_resp_loop] at hloop
    cases hstep : save_resp_entry K H i s with
    | none => simp [hstep] at hloop
    | some s2 =>
      rw [hstep] at hloop
      simp only [] at hloop
      obtain ⟨hn2, hs2⟩ := save_resp_entry_count K H p0 i s s2 hstep hnone hsome
      have hfin := ih (i + 1) s2 s1 hloop hn2 hs2
      have hidx : i + 1 + n = i + (n + 1) := by omega
      rw [hidx] at hfin
      exact hfin

/-- With `path_cnt` starting at 0 and the `cnt` entries inside the buffer,
the route step reads inside the buffer: `ucma_ib_save_resp` returns when the
conversion is disabled. -/
theorem save_resp_returns_from_zero (K : Consts) (H : Heap) (rai : rdma_addrinfo)
    (msg : acm_msg) (hcnt : (save_resp_cnt K msg).toNat ≤ msg.data.length) :
    ∃ r, ucma_ib_save_resp K H 0 0 rai msg = some r := by
  obtain ⟨s, hs, -, hlen⟩ :=
    save_resp_loop_outside K H (save_resp_cnt K msg).toNat 0 (save_resp_start 0 rai msg)
      (by simp only [save_resp_start]; omega)
  obtain ⟨hnone, hsome⟩ :=
    save_resp_loop_count K H 0 (save_resp_cnt K msg).toNat 0 (save_resp_start 0 rai msg) s hs
      (fun _ => rfl) (fun f hf => by simp [save_resp_start] at hf)
  simp only [save_resp_start] at hlen
  rw [save_resp_no_conversion K H 0 rai msg s hs]
  unfold save_resp_route
  by_cases h1 : s.path_cnt < 0 ∨ H.route_ok = false
  · rw [if_pos h1]
    exact ⟨_, rfl⟩
  · rw [if_neg h1]
    cases hpd : s.path_data with
    | none =>
      have h0 : s.path_cnt.toNat = 0 := by
        rw [hnone hpd]
        rfl
      simp only [h0, if_true]
      exact ⟨_, rfl⟩
    | some f =>
      obtain ⟨hpos, hle⟩ := hsome f hpd
      have hbound : f + s.path_cnt.toNat ≤ s.msg.data.length := by
        have h2 : ((s.path_cnt.toNat : Nat) : Int) = s.path_cnt := Int.toNat_of_nonneg (by omega)
        omega
      simp only [hbound, if_true]
      exact ⟨_, rfl⟩

/-- C16: with native addressing support disabled (`af_ib_support = 0`), for
every request and every reply whose entries lie inside the buffer, the
decoding loop completes and `ucma_ib_save_resp` is the loop followed by the
route step; every request it returns agrees with the request passed in on
family, port space, destination address, destination length and the members
never touched, so that only the source address and the route can differ; and
a source address supplied by the caller (`ai_src_len != 0`) comes back
unchanged with its length.  When `path_cnt` starts at 0 the call does return. -/
theorem c16_frame_without_native_support (K : Consts) (H : Heap) (path_cnt0 : Int)
    (rai : rdma_addrinfo) (msg : acm_msg)
    (hcnt : (save_resp_cnt K msg).toNat ≤ msg.data.length) :
    (∃ s, save_resp_decode K H path_cnt0 rai msg = some s ∧
      ucma_ib_save_resp K H 0 path_cnt0 rai msg = save_resp_route K H s) ∧
    (∀ r, ucma_ib_save_resp K H 0 path_cnt0 rai msg = some r →
      same_outside_source_and_route r rai ∧
      (rai.ai_src_len ≠ 0 →
        r.ai_src_addr = rai.ai_src_addr ∧ r.ai_src_len = rai.ai_src_len)) ∧
    (∃ r, ucma_ib_save_resp K H 0 0 rai msg = some r) := by
  obtain ⟨s, hs, hout, -⟩ :=
    save_resp_loop_outside K H (save_resp_cnt K msg).toNat 0
      (save_resp_start path_cnt0 rai msg) (by simp only [save_resp_start]; omega)
  have hdec : save_resp_decode K H path_cnt0 rai msg = some s := hs
  have hfun := save_resp_no_conversion K H path_cnt0 rai msg s hdec
  refine ⟨⟨s, hdec, hfun⟩, ?_, save_resp_returns_from_zero K H rai msg hcnt⟩
  intro r hr
  rw [hfun] at hr
  refine ⟨same_outside_trans _ _ _ (save_resp_route_outside K H s r hr) hout, ?_⟩
  intro hlen
  obtain ⟨s2, hs2, hrai2, -, -⟩ :=
    save_resp_loop_frame K H (save_resp_cnt K msg).toNat 0
      (save_resp_start path_cnt0 rai msg) (by simp only [save_resp_start]; omega)
      (Or.inl hlen)
  have hss : s2 = s := by
    have h := hs2.symm.trans hs
    simpa using h
  subst hss
  obtain ⟨h1, h2⟩ := save_resp_route_src K H s2 r hr
  rw [h1, h2, hrai2]
  exact ⟨rfl, rfl⟩

/-- Witness for C16: the request with a caller-supplied source and the reply
with an address entry between two path records. -/
theorem c16_frame_without_native_support_witness :
    (save_resp_cnt ref_consts reply_interleaved).toNat ≤ reply_interleaved.data.length ∧
    (∀ r, ucma_ib_save_resp ref_consts heap_ok 0 0 rai_src_dst reply_interleaved = some r →
      same_outside_source_and_route r rai_src_dst ∧
      (rai_src_dst.ai_src_len ≠ 0 →
        r.ai_src_addr = rai_src_dst.ai_src_addr ∧ r.ai_src_len = rai_src_dst.ai_src_len)) ∧
    (∃ r, ucma_ib_save_resp ref_consts heap_ok 0 0 rai_src_dst reply_interleaved = some r) :=
  ⟨by decide,
   (c16_frame_without_native_support ref_consts heap_ok 0 rai_src_dst reply_interleaved
      (by decide)).2⟩

/-! ## Response decoder: claims C18, C19, C20 -/

/-- C18, evaluated at a reply of two entries, a destination address entry and
then a path record with both flags.  The entry count is 2 and the path record
is entry 1, but after the loop `pri_path` addresses slot 2: `path_data` points
at entry 1 and is indexed with the loop index 1.  Slot 2 lies past the
received entries and is not tagged as a path record; the conversion builds
both native addresses from it (all-zero `sib_addr`) and not from the path
record (whose `dgid` bytes are 1 and `sgid` bytes 101). -/
theorem c18_selected_path_past_entries :
    save_resp_cnt ref_consts reply_path_after_address = 2 ∧
    reply_path_after_address.data[1]? = some (path_slot 10 1) ∧
    (save_resp_decode ref_consts heap_ok 0 rai_src_dst reply_path_after_address).map
      (fun s => (s.path_data, s.pri_path)) = some (some 1, some 2) ∧
    reply_path_after_address.data[2]? = some (zero_slot ref_consts) ∧
    (ucma_ib_save_resp ref_consts heap_ok 1 0 rai_src_dst reply_path_after_address).map
      (fun r => (r.ai_src_addr, r.ai_dst_addr))
      = some (some (sockaddr.ib
                { sib_family := 27, sib_pkey := 0, sib_flowinfo := 0,
                  sib_addr := List.replicate 16 0,
                  sib_sid := 262 * 65536, sib_sid_mask := 18446744073709486080,
                  sib_scope_id := 0 }),
              some (sockaddr.ib
                { sib_family := 27, sib_pkey := 0, sib_flowinfo := 0,
                  sib_addr := List.replicate 16 0,
                  sib_sid := 262 * 65536 + 7471, sib_sid_mask := 2 ^ 64 - 1,
                  sib_scope_id := 0 })) := by
  refine ⟨by decide, by decide, by decide, by decide, by decide⟩

theorem save_resp_cnt_eq (K : Consts) (msg : acm_msg)
    (h : K.ACM_MSG_HDR_LENGTH ≤ msg.hdr.length) :
    save_resp_cnt K msg
      = (((msg.hdr.length - K.ACM_MSG_HDR_LENGTH) / K.ACM_MSG_EP_LENGTH : Nat) : Int) := by
  unfold save_resp_cnt
  rw [← Int.ofNat_sub h]
  exact (Int.ofNat_tdiv _ _).symm

theorem buffer_slots_exact (K : Consts) (hK : K.Valid) :
    buffer_slots K (K.ACM_MSG_HDR_LENGTH + K.msg_slots * K.ACM_MSG_EP_LENGTH) = K.msg_slots := by
  obtain ⟨-, -, -, hep, -⟩ := hK
  unfold buffer_slots
  rw [Nat.add_sub_cancel_left]
  exact Nat.mul_div_cancel _ hep

/-- C19: for every reply that passes the checks on line 255 (`ret` at least
`ACM_MSG_HDR_LENGTH`, equal to the header's length field, status zero), `ret`
being at most the capacity `cap` of the receive buffer: the entry count `cnt`
computed on line 151 is non-negative, is at most the number of whole entry
slots of the buffer, and the `cnt` entries end within the `ret` bytes
received. -/
theorem c19_entry_count_within_buffer (K : Consts) (msg : acm_msg) (ret : Int) (cap : Nat)
    (hhdr : (K.ACM_MSG_HDR_LENGTH : Int) ≤ ret)
    (hlen : ret = (msg.hdr.length : Int))
    (hcap : ret ≤ (cap : Int))
    (_hstatus : msg.hdr.status = 0) :
    0 ≤ save_resp_cnt K msg ∧
    (save_resp_cnt K msg).toNat ≤ buffer_slots K cap ∧
    ((K.ACM_MSG_HDR_LENGTH + (save_resp_cnt K msg).toNat * K.ACM_MSG_EP_LENGTH : Nat) : Int)
      ≤ ret := by
  have h1 : K.ACM_MSG_HDR_LENGTH ≤ msg.hdr.length := by omega
  have h2 : msg.hdr.length ≤ cap := by omega
  rw [save_resp_cnt_eq K msg h1]
  refine ⟨Int.ofNat_nonneg _, ?_, ?_⟩
  · rw [Int.toNat_ofNat]
    unfold buffer_slots
    exact Nat.div_le_div_right (by omega)
  · rw [Int.toNat_ofNat, hlen]
    have h3 := Nat.div_mul_le_self (msg.hdr.length - K.ACM_MSG_HDR_LENGTH) K.ACM_MSG_EP_LENGTH
    have h4 : K.ACM_MSG_HDR_LENGTH
        + (msg.hdr.length - K.ACM_MSG_HDR_LENGTH) / K.ACM_MSG_EP_LENGTH * K.ACM_MSG_EP_LENGTH
        ≤ msg.hdr.length := by omega
    exact_mod_cast h4

/-- Witness for C19: the three-entry reply of 232 bytes in the 592-byte
buffer of eight slots. -/
theorem c19_entry_count_within_buffer_witness :
    ((ref_consts.ACM_MSG_HDR_LENGTH : Int) ≤ 232 ∧
      (232 : Int) = (reply_three_paths.hdr.length : Int) ∧
      (232 : Int) ≤ ((592 : Nat) : Int) ∧ reply_three_paths.hdr.status = 0) ∧
    0 ≤ save_resp_cnt ref_consts reply_three_paths ∧
    (save_resp_cnt ref_consts reply_three_paths).toNat ≤ buffer_slots ref_consts 592 :=
  ⟨⟨by decide, by decide, by decide, rfl⟩,
   (c19_entry_count_within_buffer ref_consts reply_three_paths 232 592
      (by decide) (by decide) (by decide) rfl).1,
   (c19_entry_count_within_buffer ref_consts reply_three_paths 232 592
      (by decide) (by decide) (by decide) rfl).2.1⟩

theorem spec_source_addr_port (K : Consts) (d : acm_ep_addr_data) :
    sa_family (spec_source_addr K d) = 0 ∧ sin_port_of (spec_source_addr K d) = 0 := by
  unfold spec_source_addr
  split <;> exact ⟨rfl, rfl⟩

/-- C20: the source address that `ucma_ib_save_resp` creates from the first
SOURCE address entry `d` of a reply (request without source, allocation
succeeding).  After the loop `ai_src_len` is `sizeof(struct sockaddr_in)` or
`sizeof(struct sockaddr_in6)` according to the entry's tag and `ai_src_addr`
is a structure of that kind whose address bytes are the first 4 or 16 payload
bytes and whose other members are all zero: the family member is 0 and the
port is 0.  A later `ucma_set_sid` on it, for a port space below 2^48, stores
the service id `ps << 16` and the mask `htonll(RDMA_IB_IP_PS_MASK)`. -/
theorem c20_created_source_address (K : Consts) (H : Heap) (path_cnt0 : Int)
    (rai : rdma_addrinfo) (msg : acm_msg) (j : Nat) (d : acm_ep_addr_data) (ps : Nat)
    (hK : K.Valid) (hlen : rai.ai_src_len = 0)
    (hcnt : (save_resp_cnt K msg).toNat ≤ msg.data.length)
    (hj : j < (save_resp_cnt K msg).toNat)
    (hd : msg.data[j]? = some d) (hsrc : is_source_entry K d)
    (hfirst : ∀ k e, k < j → msg.data[k]? = some e → ¬ is_source_entry K e)
    (hok : H.addr_ok j = true) (hps : ps < 2 ^ 48) :
    (∃ s, save_resp_decode K H path_cnt0 rai msg = some s ∧
      s.rai.ai_src_len
        = (if d.type = K.ACM_EP_INFO_ADDRESS_IP then K.sizeof_sockaddr_in
           else K.sizeof_sockaddr_in6) ∧
      s.rai.ai_src_addr = some (spec_source_addr K d)) ∧
    spec_source_addr K d
      = (if d.type = K.ACM_EP_INFO_ADDRESS_IP then
           sockaddr.in4 { sin_family := 0, sin_port := 0, sin_addr := d.info.take 4 }
         else
           sockaddr.in6 { sin6_family := 0, sin6_port := 0, sin6_flowinfo := 0,
                          sin6_addr := d.info.take 16, sin6_scope_id := 0 }) ∧
    sa_family (spec_source_addr K d) = 0 ∧
    spec_port (spec_source_addr K d) = some 0 ∧
    (∀ sib, ucma_set_sid K ps (some (spec_source_addr K d)) sib
      = some { sib with sib_sid := ps <<< 16, sib_sid_mask := htonll K.RDMA_IB_IP_PS_MASK }) := by
  obtain ⟨s, hs, hrai⟩ :=
    save_resp_decode_source K H path_cnt0 rai msg j d hK hlen hcnt hj hd hsrc hfirst hok
  obtain ⟨hfam, hport⟩ := spec_source_addr_port K d
  refine ⟨⟨s, hs, ?_, ?_⟩, rfl, hfam, ?_, ?_⟩
  · rw [hrai]
    rfl
  · rw [hrai]
  · unfold spec_source_addr
    split <;> rfl
  · intro sib
    have h := ucma_set_sid_eq K ps 0 (spec_source_addr K d) sib hport (by decide) hps
    simpa using h

/-- Witness for C20: the reply with a destination entry and two SOURCE
entries, port space 262. -/
theorem c20_created_source_address_witness :
    (ref_consts.Valid ∧ rai_dst_only.ai_src_len = 0 ∧
      (save_resp_cnt ref_consts reply_two_sources).toNat ≤ reply_two_sources.data.length ∧
      1 < (save_resp_cnt ref_consts reply_two_sources).toNat ∧
      reply_two_sources.data[1]? = some (source_slot 7) ∧
      is_source_entry ref_consts (source_slot 7) ∧
      heap_ok.addr_ok 1 = true ∧ 262 < 2 ^ 48) ∧
    (∀ sib, ucma_set_sid ref_consts 262 (some (spec_source_addr ref_consts (source_slot 7))) sib
      = some { sib with sib_sid := 262 <<< 16
                        sib_sid_mask := htonll ref_consts.RDMA_IB_IP_PS_MASK }) :=
  ⟨⟨valid_ref_consts, rfl, by decide, by decide, by decide, by decide, rfl, by decide⟩,
   (c20_created_source_address ref_consts heap_ok 0 rai_dst_only reply_two_sources 1
     (source_slot 7) 262 valid_ref_consts rfl (by decide) (by decide) (by decide) (by decide)
     (fun k e hk hke => by
        have hk0 : k = 0 := by omega
        subst hk0
        have he : e = dest_slot := by
          simpa [reply_two_sources] using hke.symm
        subst he
        decide)
     rfl (by decide)).2.2.2.2⟩

/-! ## Round trip: the steps of one call -/

/-- The sequential content of the locking discipline: in every call of
`ucma_ib_resolve` the steps are none at all, or lock, send, unlock, or lock,
send, receive, unlock, the last possibly followed by the decoder; `send` and
`recv` only occur between `lock` and `unlock`. -/
theorem resolve_trace_bracketed (K : Consts) (E : Env) (sock af_ib_support : Int)
    (rai : rdma_addrinfo) :
    (ucma_ib_resolve K E sock af_ib_support rai).1 = [] ∨
    (∃ m l, (ucma_ib_resolve K E sock af_ib_support rai).1
      = [Event.lock, Event.send m l, Event.unlock]) ∨
    (∃ m l, (ucma_ib_resolve K E sock af_ib_support rai).1
      = [Event.lock, Event.send m l, Event.recv, Event.unlock]) ∨
    (∃ m l r, (ucma_ib_resolve K E sock af_ib_support rai).1
      = [Event.lock, Event.send m l, Event.recv, Event.unlock, Event.save_resp r]) := by
  unfold ucma_ib_resolve
  split
  · exact Or.inl rfl
  · split
    · exact Or.inl rfl
    · simp only []
      split
      · exact Or.inr (Or.inl ⟨_, _, rfl⟩)
      · split
        · exact Or.inr (Or.inr (Or.inl ⟨_, _, rfl⟩))
        · exact Or.inr (Or.inr (Or.inr ⟨_, _, _, rfl⟩))

end Acm
